import Mathlib

/-!
Verification of the black-hole light-ray simulation core (komcat/openglfw).

The development shallowly embeds the two `LightRay.cpp` snapshots that the
specification describes:

* the geodesic variant (`Geo` namespace): `CalculateGeodesicDeflection`,
  `CalculateTimeDilation`, `PropagateRay`, `UpdateSegments`, `Update`,
  `Reset`, `NeedsReset`, `ShouldRespawn`;
* the simple perpendicular-deflection variant (`Simple` namespace):
  `CalculateGravitationalForce`, `PropagateRay`, `UpdateSegments`,
  `Update`, `Reset`, `NeedsReset`, `ShouldRespawn`;
* the spawn strategies of `RayFactory.cpp` (`Factory` namespace).

Modelling conventions:

* `float` arithmetic is modelled by exact real arithmetic; tolerance-style
  statements of the specification become exact equalities.
* The static tuning members `gravityMultiplier`, `maxForce`,
  `forceExponent`, `minDistance` of `LightRay` are passed as an explicit
  `GravParams` record, following the reframing in the design notes of the
  specification.
* `glm::normalize` has an unspecified result on the zero vector (in IEEE
  arithmetic it produces NaN components, since it multiplies by
  `inversesqrt 0`).  It is therefore modelled as the `Option`-valued `nlz`,
  returning `none` exactly on the zero vector, and the functions calling
  it are `Option`-valued.  Every other division in the translated code is
  modelled by total real division; in all proofs below those divisors are
  shown positive, so the junk value of division by zero is never used.
* The `std::mt19937` noise draws of `Reset` are passed explicitly as a
  `Noise` record, following the random-source reframing in the design
  notes of the specification.
-/

/-- A 2D vector, the model of `glm::vec2`. -/
@[ext]
structure Vec2 where
  x : ℝ
  y : ℝ

namespace Vec2

instance : Zero Vec2 := ⟨⟨0, 0⟩⟩

instance : Add Vec2 := ⟨fun a b => ⟨a.x + b.x, a.y + b.y⟩⟩

instance : Sub Vec2 := ⟨fun a b => ⟨a.x - b.x, a.y - b.y⟩⟩

instance : Neg Vec2 := ⟨fun a => ⟨-a.x, -a.y⟩⟩

instance : SMul ℝ Vec2 := ⟨fun c a => ⟨c * a.x, c * a.y⟩⟩

noncomputable instance : DecidableEq Vec2 := Classical.decEq _

end Vec2

/-- The model of `glm::length`: the Euclidean norm. -/
noncomputable def len (v : Vec2) : ℝ := Real.sqrt (v.x ^ 2 + v.y ^ 2)

/-- The model of `glm::dot`. -/
def dot (a b : Vec2) : ℝ := a.x * b.x + a.y * b.y

/-- The model of `glm::normalize`.  On the zero vector glm multiplies by
`inversesqrt 0` and the IEEE result has NaN components; we return `none`
there and the unit vector otherwise. -/
noncomputable def nlz (v : Vec2) : Option Vec2 :=
  if v = 0 then none else some ((len v)⁻¹ • v)

/-- The tunable gravity parameters.  In `LightRay.cpp` these are the static
members `gravityMultiplier`, `maxForce`, `forceExponent` and `minDistance`;
following the design notes of the specification they are passed as an
explicit record. -/
structure GravParams where
  gravityMultiplier : ℝ
  maxForce : ℝ
  forceExponent : ℝ
  minDistance : ℝ

/-- The default values of the static members of `LightRay`. -/
def defaultParams : GravParams :=
  { gravityMultiplier := 1, maxForce := 15, forceExponent := 2, minDistance := 0.001 }

/-- The constant `LightRay::ABSORPTION_RESPAWN_TIME`. -/
def ABSORPTION_RESPAWN_TIME : ℝ := 0.1

/-- One batch of noise draws consumed by `Reset`: the two position draws
and the angle draw.  The `std::mt19937` source is passed explicitly,
following the random-source reframing in the design notes. -/
structure Noise where
  posX : ℝ
  posY : ℝ
  angle : ℝ

namespace Geo

/-- The state of one ray in the geodesic snapshot of `LightRay.cpp`
(lines 1 to 269). -/
structure Ray where
  startPosition : Vec2
  baseSpeed : ℝ
  initialAngle : ℝ
  absorbed : Bool
  maxSegments : ℕ
  timeSinceAbsorption : ℝ
  properTime : ℝ
  angularMomentum : ℝ
  headPosition : Vec2
  headVelocity : Vec2
  segments : List Vec2

/-- Model of `LightRay::CalculateTimeDilation`. -/
noncomputable def CalculateTimeDilation (r blackholeMass : ℝ) : ℝ :=
  let rs := 2 * blackholeMass
  if r ≤ rs then 0.01
  else min (1 / Real.sqrt (1 - rs / r)) 10

/-- Model of `LightRay::CalculateGeodesicDeflection`.  The velocity
argument is present but unused, exactly as in the source. -/
noncomputable def CalculateGeodesicDeflection (position _velocity blackholePos : Vec2)
    (blackholeMass angularMomentum : ℝ) (p : GravParams) : Option Vec2 :=
  let toBlackhole := blackholePos - position
  let r0 := len toBlackhole
  let r := if r0 < p.minDistance then p.minDistance else r0
  let rs := 2 * blackholeMass
  if r < rs * 0.5 then
    (nlz toBlackhole).map fun u => p.maxForce • u
  else
    let rHat := (1 / r) • toBlackhole
    let phiHat : Vec2 := ⟨-rHat.y, rHat.x⟩
    let radialAccel := -(rs / (2 * r * r)) * (1 - rs / r)
    let tangentialAccel := -(rs / (r * r * r)) * |angularMomentum| * 0.1
    let acceleration := p.gravityMultiplier • (radialAccel • rHat + tangentialAccel • phiHat)
    some (if len acceleration > p.maxForce then
            p.maxForce • ((1 / len acceleration) • acceleration)
          else acceleration)

/-- The body of the geodesic `LightRay::PropagateRay` from the time
dilation up to the position update (lines 132 to 157): compute the
effective proper-time step, deflect the velocity by the geodesic
acceleration, renormalize to the base speed when the intermediate speed is
above the minimum-speed guard, and advance the head.  Returns the new head
velocity and head position.  Factored out of `PropagateRay` so that the
post-move head position can be referred to directly. -/
noncomputable def IntegrateHead (deltaTime : ℝ) (blackholePos : Vec2)
    (blackholeMass : ℝ) (p : GravParams) (s : Ray) : Option (Vec2 × Vec2) :=
  let r := len (s.headPosition - blackholePos)
  let effectiveDeltaTime := deltaTime / CalculateTimeDilation r blackholeMass
  (CalculateGeodesicDeflection s.headPosition s.headVelocity blackholePos blackholeMass
      s.angularMomentum p).bind fun acceleration =>
    let newVelocity := s.headVelocity + effectiveDeltaTime • acceleration
    (if len newVelocity > 0.001 then
        (nlz newVelocity).map fun u => s.baseSpeed • u
      else some s.headVelocity).map fun headVelocity1 =>
      (headVelocity1, s.headPosition + effectiveDeltaTime • headVelocity1)

/-- Model of the geodesic `LightRay::PropagateRay` (lines 125 to 171).
The event-horizon check compares the distance `r` measured at entry,
before the head moves. -/
noncomputable def PropagateRay (deltaTime : ℝ) (blackholePos : Vec2)
    (blackholeMass eventHorizon : ℝ) (p : GravParams) (s : Ray) : Option Ray :=
  if s.absorbed then
    some { s with timeSinceAbsorption := s.timeSinceAbsorption + deltaTime }
  else
    let r := len (s.headPosition - blackholePos)
    let effectiveDeltaTime := deltaTime / CalculateTimeDilation r blackholeMass
    let properTime1 := s.properTime + effectiveDeltaTime
    (IntegrateHead deltaTime blackholePos blackholeMass p s).bind fun vq =>
      let angularMomentum1 := vq.2.x * vq.1.y - vq.2.y * vq.1.x
      if r < eventHorizon then
        (nlz (blackholePos - vq.2)).map fun w =>
          { s with absorbed := true, timeSinceAbsorption := 0, properTime := properTime1,
                   angularMomentum := angularMomentum1, headVelocity := vq.1,
                   headPosition := blackholePos - eventHorizon • w }
      else
        some { s with properTime := properTime1, angularMomentum := angularMomentum1,
                      headVelocity := vq.1, headPosition := vq.2 }

/-- Model of the geodesic `LightRay::UpdateSegments` (lines 173 to 195).
The unused `deltaTime` parameter of the source is dropped. -/
noncomputable def UpdateSegments (s : Ray) : Ray :=
  if s.absorbed then s
  else
    let segs :=
      match s.segments with
      | [] => [s.headPosition]
      | p0 :: rest =>
        if len (s.headPosition - p0) > 0.01 then s.headPosition :: p0 :: rest
        else p0 :: rest
    { s with segments := if segs.length > s.maxSegments then segs.take s.maxSegments else segs }

/-- Model of `LightRay::NeedsReset` (lines 240 to 269).  The visibility
loop over the first `min 20 size` segments with early break is the list
`any` over the first 20 entries. -/
noncomputable def NeedsReset (s : Ray) : Bool :=
  match s.segments with
  | [] => true
  | _ :: _ =>
    if s.absorbed then false
    else if len s.headPosition > 2.5 then true
    else !((s.segments.take 20).any fun q => decide (|q.x| ≤ 2 ∧ |q.y| ≤ 2))

/-- Model of `LightRay::ShouldRespawn` (lines 235 to 238). -/
noncomputable def ShouldRespawn (s : Ray) : Bool :=
  s.absorbed && decide (s.timeSinceAbsorption > ABSORPTION_RESPAWN_TIME)

/-- Model of the geodesic `LightRay::Reset` (lines 29 to 62): rerandomize
the head, recompute the conserved angular momentum and rebuild the
50-point backward initial trail. -/
noncomputable def Reset (n : Noise) (s : Ray) : Ray :=
  let headPosition := s.startPosition + (⟨n.posX, n.posY⟩ : Vec2)
  let finalAngle := s.initialAngle + n.angle
  let headVelocity : Vec2 :=
    ⟨s.baseSpeed * Real.cos finalAngle, s.baseSpeed * Real.sin finalAngle⟩
  { s with absorbed := false, timeSinceAbsorption := 0, properTime := 0,
           headPosition := headPosition, headVelocity := headVelocity,
           angularMomentum :=
             headPosition.x * headVelocity.y - headPosition.y * headVelocity.x,
           segments := (List.range 50).map fun (i : ℕ) =>
             ⟨headPosition.x - (i : ℝ) * 0.02 * Real.cos finalAngle,
              headPosition.y - (i : ℝ) * 0.02 * Real.sin finalAngle⟩ }

/-- Model of `LightRay::Update` (lines 197 to 210). -/
noncomputable def Update (deltaTime : ℝ) (blackholePos : Vec2)
    (blackholeMass eventHorizon : ℝ) (p : GravParams) (n : Noise) (s : Ray) : Option Ray :=
  (PropagateRay deltaTime blackholePos blackholeMass eventHorizon p s).map fun s1 =>
    let s2 := UpdateSegments s1
    if NeedsReset s2 then Reset n s2
    else if ShouldRespawn s2 then Reset n s2
    else s2

/-- Model of the geodesic `LightRay` constructor (lines 16 to 26): store
the launch parameters, set `maxSegments` to ten times `segmentCount`, and
call `Reset`. -/
noncomputable def mkLightRay (startPos : Vec2) (speed : ℝ) (segmentCount : ℕ)
    (angle : ℝ) (n : Noise) : Ray :=
  Reset n
    { startPosition := startPos, baseSpeed := speed, initialAngle := angle,
      absorbed := false, maxSegments := segmentCount * 10, timeSinceAbsorption := 0,
      properTime := 0, angularMomentum := 0, headPosition := 0, headVelocity := 0,
      segments := [] }

end Geo

namespace Simple

/-- The state of one ray in the simple perpendicular-deflection snapshot
of `LightRay.cpp` (lines 269 to 484). -/
structure Ray where
  startPosition : Vec2
  baseSpeed : ℝ
  initialAngle : ℝ
  absorbed : Bool
  maxSegments : ℕ
  timeSinceAbsorption : ℝ
  headPosition : Vec2
  headVelocity : Vec2
  segments : List Vec2

/-- Model of `LightRay::CalculateGravitationalForce` (lines 348 to 364). -/
noncomputable def CalculateGravitationalForce (position blackholePos : Vec2)
    (blackholeMass : ℝ) (p : GravParams) : Option Vec2 :=
  let toBlackhole := blackholePos - position
  let distance :=
    if len toBlackhole < p.minDistance then p.minDistance else len toBlackhole
  let forceMagnitude :=
    min (blackholeMass * p.gravityMultiplier / distance ^ p.forceExponent) p.maxForce
  (nlz toBlackhole).map fun u => forceMagnitude • u

/-- The body of the simple `LightRay::PropagateRay` up to the event-horizon
check: deflect the velocity by the perpendicular component of gravity,
renormalize to the base speed, and advance the head.  Returns the new head
velocity and head position.  Factored out of `PropagateRay` so that the
absorption condition, which the source evaluates on the post-move
position, can be referred to directly. -/
noncomputable def IntegrateHead (deltaTime : ℝ) (blackholePos : Vec2)
    (blackholeMass : ℝ) (p : GravParams) (s : Ray) : Option (Vec2 × Vec2) :=
  (CalculateGravitationalForce s.headPosition blackholePos blackholeMass p).bind fun force =>
    (nlz s.headVelocity).bind fun velNorm =>
      let perpForce := force - (dot force velNorm) • velNorm
      (nlz (s.headVelocity + deltaTime • perpForce)).map fun u =>
        let headVelocity1 := s.baseSpeed • u
        (headVelocity1, s.headPosition + deltaTime • headVelocity1)

/-- Model of the simple `LightRay::PropagateRay` (lines 367 to 406). -/
noncomputable def PropagateRay (deltaTime : ℝ) (blackholePos : Vec2)
    (blackholeMass eventHorizon : ℝ) (p : GravParams) (s : Ray) : Option Ray :=
  if s.absorbed then
    some { s with timeSinceAbsorption := s.timeSinceAbsorption + deltaTime }
  else
    (IntegrateHead deltaTime blackholePos blackholeMass p s).bind fun vq =>
      if len (vq.2 - blackholePos) < eventHorizon then
        (nlz (blackholePos - vq.2)).map fun w =>
          { s with absorbed := true, timeSinceAbsorption := 0,
                   headVelocity := vq.1, headPosition := blackholePos - eventHorizon • w }
      else
        some { s with headVelocity := vq.1, headPosition := vq.2 }

/-- Model of the simple `LightRay::UpdateSegments` (lines 410 to 432),
textually identical to the geodesic one. -/
noncomputable def UpdateSegments (s : Ray) : Ray :=
  if s.absorbed then s
  else
    let segs :=
      match s.segments with
      | [] => [s.headPosition]
      | p0 :: rest =>
        if len (s.headPosition - p0) > 0.01 then s.headPosition :: p0 :: rest
        else p0 :: rest
    { s with segments := if segs.length > s.maxSegments then segs.take s.maxSegments else segs }

/-- Model of `LightRay::NeedsReset` (lines 455 to 484). -/
noncomputable def NeedsReset (s : Ray) : Bool :=
  match s.segments with
  | [] => true
  | _ :: _ =>
    if s.absorbed then false
    else if len s.headPosition > 2.5 then true
    else !((s.segments.take 20).any fun q => decide (|q.x| ≤ 2 ∧ |q.y| ≤ 2))

/-- Model of `LightRay::ShouldRespawn` (lines 449 to 452). -/
noncomputable def ShouldRespawn (s : Ray) : Bool :=
  s.absorbed && decide (s.timeSinceAbsorption > ABSORPTION_RESPAWN_TIME)

/-- Model of the simple `LightRay::Reset` (lines 294 to 323): rerandomize
the head and rebuild the 10-point backward initial trail. -/
noncomputable def Reset (n : Noise) (s : Ray) : Ray :=
  let headPosition := s.startPosition + (⟨n.posX, n.posY⟩ : Vec2)
  let finalAngle := s.initialAngle + n.angle
  { s with absorbed := false, timeSinceAbsorption := 0,
           headPosition := headPosition,
           headVelocity :=
             ⟨s.baseSpeed * Real.cos finalAngle, s.baseSpeed * Real.sin finalAngle⟩,
           segments := (List.range 10).map fun (i : ℕ) =>
             ⟨headPosition.x - (i : ℝ) * 0.02 * Real.cos finalAngle,
              headPosition.y - (i : ℝ) * 0.02 * Real.sin finalAngle⟩ }

/-- Model of `LightRay::Update` (lines 434 to 447). -/
noncomputable def Update (deltaTime : ℝ) (blackholePos : Vec2)
    (blackholeMass eventHorizon : ℝ) (p : GravParams) (n : Noise) (s : Ray) : Option Ray :=
  (PropagateRay deltaTime blackholePos blackholeMass eventHorizon p s).map fun s1 =>
    let s2 := UpdateSegments s1
    if NeedsReset s2 then Reset n s2
    else if ShouldRespawn s2 then Reset n s2
    else s2

/-- Model of the simple `LightRay` constructor (lines 283 to 291): store
the launch parameters, set `maxSegments` to `segmentCount`, and call
`Reset`. -/
noncomputable def mkLightRay (startPos : Vec2) (speed : ℝ) (segmentCount : ℕ)
    (angle : ℝ) (n : Noise) : Ray :=
  Reset n
    { startPosition := startPos, baseSpeed := speed, initialAngle := angle,
      absorbed := false, maxSegments := segmentCount, timeSinceAbsorption := 0,
      headPosition := 0, headVelocity := 0, segments := [] }

end Simple

namespace Factory

/-- One ray descriptor produced by a spawn strategy: the four arguments
that `CreateRayBatch` passes to the `LightRay` constructor. -/
structure RayDesc where
  pos : Vec2
  speed : ℝ
  segmentCount : ℕ
  angle : ℝ

/-- Model of `LeftEdgeSpawnStrategy::CreateRayBatch` (RayFactory.cpp lines
10 to 40).  The per-ray noise draws are the streams `pN`, `aN`, `sN`,
indexed by the position of the ray in the batch. -/
noncomputable def LeftEdgeCreateRayBatch (count : ℕ) (raySpeed : ℝ) (segmentCount : ℕ)
    (pN aN sN : ℕ → ℝ) : List RayDesc :=
  (List.range count).map fun (i : ℕ) =>
    let spacing := 4 / (count : ℝ)
    { pos := ⟨-2, -2 + spacing * (i : ℝ) + spacing * 0.5 + pN i⟩,
      speed := raySpeed * sN i, segmentCount := segmentCount, angle := 0 + aN i }

/-- Model of `FourEdgeSpawnStrategy::CreateRayBatch` (RayFactory.cpp lines
43 to 112): `count / 4` rays per edge, with the remainder handed out one
ray at a time to the left, right and top edges in that order. -/
noncomputable def FourEdgeCreateRayBatch (count : ℕ) (raySpeed : ℝ) (segmentCount : ℕ)
    (pN aN sN : ℕ → ℝ) : List RayDesc :=
  let raysPerEdge := count / 4
  let remainder0 := count % 4
  let n1 := raysPerEdge + if 0 < remainder0 then 1 else 0
  let remainder1 := remainder0 - (if 0 < remainder0 then 1 else 0)
  let n2 := raysPerEdge + if 0 < remainder1 then 1 else 0
  let remainder2 := remainder1 - (if 0 < remainder1 then 1 else 0)
  let n3 := raysPerEdge + if 0 < remainder2 then 1 else 0
  let spacing := 4 / ((raysPerEdge : ℝ) + 1)
  let left := (List.range n1).map fun (i : ℕ) =>
    { pos := ⟨-2, -2 + spacing * ((i : ℝ) + 1) + pN i⟩,
      speed := raySpeed * sN i, segmentCount := segmentCount,
      angle := 0 + aN i }
  let right := (List.range n2).map fun (i : ℕ) =>
    { pos := ⟨2, -2 + spacing * ((i : ℝ) + 1) + pN (n1 + i)⟩,
      speed := raySpeed * sN (n1 + i), segmentCount := segmentCount,
      angle := Real.pi + aN (n1 + i) }
  let top := (List.range n3).map fun (i : ℕ) =>
    { pos := ⟨-2 + spacing * ((i : ℝ) + 1) + pN (n1 + n2 + i), 2⟩,
      speed := raySpeed * sN (n1 + n2 + i), segmentCount := segmentCount,
      angle := -(Real.pi / 2) + aN (n1 + n2 + i) }
  let bottom := (List.range raysPerEdge).map fun (i : ℕ) =>
    { pos := ⟨-2 + spacing * ((i : ℝ) + 1) + pN (n1 + n2 + n3 + i), -2⟩,
      speed := raySpeed * sN (n1 + n2 + n3 + i), segmentCount := segmentCount,
      angle := Real.pi / 2 + aN (n1 + n2 + n3 + i) }
  left ++ right ++ top ++ bottom

/-- Model of `RadialSpawnStrategy::CreateRayBatch` (RayFactory.cpp lines
115 to 148); `spawnRadius` is the strategy field (2.5 by default). -/
noncomputable def RadialCreateRayBatch (spawnRadius : ℝ) (count : ℕ) (raySpeed : ℝ)
    (segmentCount : ℕ) (rN aN sN : ℕ → ℝ) : List RayDesc :=
  (List.range count).map fun (i : ℕ) =>
    let angle := 2 * Real.pi * (i : ℝ) / (count : ℝ)
    let r := spawnRadius * rN i
    { pos := ⟨r * Real.cos angle, r * Real.sin angle⟩,
      speed := raySpeed * sN i, segmentCount := segmentCount,
      angle := angle + Real.pi + aN i }

/-- The loop body of `SpiralSpawnStrategy::CreateRayBatch`: `i` is the loop
index, the second argument the number of iterations left, and the last the
running `currentAngle` strategy state, advanced by `angleIncrement` and
wrapped at `2 * pi` after each ray. -/
noncomputable def SpiralGo (count : ℕ) (raySpeed : ℝ) (segmentCount : ℕ)
    (radiusStart radiusEnd angleIncrement : ℝ) (aN sN : ℕ → ℝ) :
    ℕ → ℕ → ℝ → List RayDesc
  | _, 0, _ => []
  | i, remaining + 1, currentAngle =>
    let t := (i : ℝ) / (count : ℝ)
    let radius := radiusStart + (radiusEnd - radiusStart) * t
    let nextAngle0 := currentAngle + angleIncrement
    let nextAngle := if nextAngle0 > 2 * Real.pi then nextAngle0 - 2 * Real.pi else nextAngle0
    { pos := ⟨radius * Real.cos currentAngle, radius * Real.sin currentAngle⟩,
      speed := raySpeed * sN i, segmentCount := segmentCount,
      angle := currentAngle + Real.pi + aN i }
      :: SpiralGo count raySpeed segmentCount radiusStart radiusEnd angleIncrement aN sN
           (i + 1) remaining nextAngle

/-- Model of `SpiralSpawnStrategy::CreateRayBatch` (RayFactory.cpp lines
151 to 190), started from the strategy state `currentAngle`. -/
noncomputable def SpiralCreateRayBatch (currentAngle : ℝ) (count : ℕ) (raySpeed : ℝ)
    (segmentCount : ℕ) (radiusStart radiusEnd angleIncrement : ℝ)
    (aN sN : ℕ → ℝ) : List RayDesc :=
  SpiralGo count raySpeed segmentCount radiusStart radiusEnd angleIncrement aN sN
    0 count currentAngle

end Factory

/-- A concrete non-absorbed geodesic-variant ray used by witnesses. -/
noncomputable def wRayG : Geo.Ray :=
  { startPosition := ⟨-2, 0⟩, baseSpeed := 1, initialAngle := 0, absorbed := false,
    maxSegments := 10, timeSinceAbsorption := 0, properTime := 0, angularMomentum := 0,
    headPosition := ⟨1/2, 0⟩, headVelocity := ⟨-1, 0⟩, segments := [⟨1/2, 0⟩] }

/-- A concrete non-absorbed simple-variant ray used by witnesses. -/
noncomputable def wRayS : Simple.Ray :=
  { startPosition := ⟨-2, 0⟩, baseSpeed := 1, initialAngle := 0, absorbed := false,
    maxSegments := 10, timeSinceAbsorption := 0,
    headPosition := ⟨3/10, 0⟩, headVelocity := ⟨-1, 0⟩, segments := [⟨3/10, 0⟩] }

/-- A concrete freshly absorbed geodesic-variant ray used by witnesses. -/
noncomputable def wAbsG : Geo.Ray :=
  { startPosition := ⟨-2, 0⟩, baseSpeed := 1, initialAngle := 0, absorbed := true,
    maxSegments := 10, timeSinceAbsorption := 0, properTime := 0, angularMomentum := 0,
    headPosition := ⟨1/5, 0⟩, headVelocity := ⟨-1, 0⟩, segments := [⟨1/5, 0⟩] }

/-- A concrete freshly absorbed simple-variant ray used by witnesses. -/
noncomputable def wAbsS : Simple.Ray :=
  { startPosition := ⟨-2, 0⟩, baseSpeed := 1, initialAngle := 0, absorbed := true,
    maxSegments := 10, timeSinceAbsorption := 0,
    headPosition := ⟨1/5, 0⟩, headVelocity := ⟨-1, 0⟩, segments := [⟨1/5, 0⟩] }

/-- The ray of the C4 counterexample, about to cross the event horizon:
head at distance one half from the black hole at the origin, moving
straight at it at unit speed. -/
noncomputable def rayA : Geo.Ray :=
  { startPosition := ⟨1/2, 0⟩, baseSpeed := 1, initialAngle := 0, absorbed := false,
    maxSegments := 10, timeSinceAbsorption := 0, properTime := 0, angularMomentum := 0,
    headPosition := ⟨1/2, 0⟩, headVelocity := ⟨-1, 0⟩, segments := [⟨1/2, 0⟩] }

/-- The state of `rayA` right after the geodesic `PropagateRay` of the C4
counterexample step: the head has moved to distance one tenth from the
black hole, inside the event horizon of radius one fifth, but the absorbed
flag is still false because the horizon check used the entry distance. -/
noncomputable def rayAp : Geo.Ray :=
  { startPosition := ⟨1/2, 0⟩, baseSpeed := 1, initialAngle := 0, absorbed := false,
    maxSegments := 10, timeSinceAbsorption := 0, properTime := 3/5, angularMomentum := 0,
    headPosition := ⟨-(1/10), 0⟩, headVelocity := ⟨-1, 0⟩, segments := [⟨1/2, 0⟩] }

noncomputable def rayAfin : Geo.Ray :=
  { startPosition := ⟨1/2, 0⟩, baseSpeed := 1, initialAngle := 0, absorbed := false,
    maxSegments := 10, timeSinceAbsorption := 0, properTime := 3/5, angularMomentum := 0,
    headPosition := ⟨-(1/10), 0⟩, headVelocity := ⟨-1, 0⟩,
    segments := [⟨-(1/10), 0⟩, ⟨1/2, 0⟩] }

/-- A geodesic-variant ray that starts an `Update` already inside the
event horizon of radius one fifth, used by the C4 witness. -/
noncomputable def wInG : Geo.Ray :=
  { startPosition := ⟨-2, 0⟩, baseSpeed := 1, initialAngle := 0, absorbed := false,
    maxSegments := 10, timeSinceAbsorption := 0, properTime := 0, angularMomentum := 0,
    headPosition := ⟨1/10, 0⟩, headVelocity := ⟨-1, 0⟩, segments := [⟨1/10, 0⟩] }

namespace Vec2

@[simp] theorem zero_x : (0 : Vec2).x = 0 := rfl

@[simp] theorem zero_y : (0 : Vec2).y = 0 := rfl

@[simp] theorem add_x (a b : Vec2) : (a + b).x = a.x + b.x := rfl

@[simp] theorem add_y (a b : Vec2) : (a + b).y = a.y + b.y := rfl

@[simp] theorem sub_x (a b : Vec2) : (a - b).x = a.x - b.x := rfl

@[simp] theorem sub_y (a b : Vec2) : (a - b).y = a.y - b.y := rfl

@[simp] theorem neg_x (a : Vec2) : (-a).x = -a.x := rfl

@[simp] theorem neg_y (a : Vec2) : (-a).y = -a.y := rfl

@[simp] theorem smul_x (c : ℝ) (a : Vec2) : (c • a).x = c * a.x := rfl

@[simp] theorem smul_y (c : ℝ) (a : Vec2) : (c • a).y = c * a.y := rfl

theorem eq_zero_iff (a : Vec2) : a = 0 ↔ a.x = 0 ∧ a.y = 0 := by
  constructor
  · intro h; rw [h]; exact ⟨rfl, rfl⟩
  · rintro ⟨hx, hy⟩; ext <;> simp [hx, hy]

end Vec2

theorem len_nonneg (v : Vec2) : 0 ≤ len v := Real.sqrt_nonneg _

theorem len_eq_zero_iff (v : Vec2) : len v = 0 ↔ v = 0 := by
  unfold len
  rw [Real.sqrt_eq_zero (by positivity), Vec2.eq_zero_iff]
  constructor
  · intro h
    constructor
    · nlinarith [sq_nonneg v.x, sq_nonneg v.y]
    · nlinarith [sq_nonneg v.x, sq_nonneg v.y]
  · rintro ⟨hx, hy⟩; rw [hx, hy]; ring

theorem len_pos_of_ne_zero {v : Vec2} (h : v ≠ 0) : 0 < len v := by
  rcases lt_or_eq_of_le (len_nonneg v) with h' | h'
  · exact h'
  · exact absurd ((len_eq_zero_iff v).mp h'.symm) h

theorem len_smul (c : ℝ) (v : Vec2) : len (c • v) = |c| * len v := by
  unfold len
  have : (c • v).x ^ 2 + (c • v).y ^ 2 = c ^ 2 * (v.x ^ 2 + v.y ^ 2) := by
    simp; ring
  rw [this, Real.sqrt_mul (by positivity), Real.sqrt_sq_eq_abs]

/-- Norm of a vector on the x axis. -/
theorem len_x (a : ℝ) : len ⟨a, 0⟩ = |a| := by
  unfold len
  simp [Real.sqrt_sq_eq_abs]

theorem nlz_eq_none_iff (v : Vec2) : nlz v = none ↔ v = 0 := by
  unfold nlz
  split <;> simp_all

theorem nlz_len {v u : Vec2} (h : nlz v = some u) : len u = 1 := by
  unfold nlz at h
  split at h
  · exact absurd h (by simp)
  · have hv : v ≠ 0 := by assumption
    have hpos := len_pos_of_ne_zero hv
    have := Option.some.inj h
    rw [← this, len_smul, abs_of_pos (by positivity : (0:ℝ) < (len v)⁻¹)]
    field_simp

theorem nlz_of_ne_zero {v : Vec2} (h : v ≠ 0) :
    nlz v = some ((len v)⁻¹ • v) := by
  unfold nlz
  rw [if_neg h]

theorem nlz_x_pos {a : ℝ} (h : 0 < a) : nlz ⟨a, 0⟩ = some ⟨1, 0⟩ := by
  have hne : (⟨a, 0⟩ : Vec2) ≠ 0 := by
    intro hy
    rw [Vec2.eq_zero_iff] at hy
    exact absurd hy.1 (ne_of_gt h)
  rw [nlz_of_ne_zero hne, len_x, abs_of_pos h]
  congr 1
  ext <;> simp
  field_simp

theorem nlz_x_neg {a : ℝ} (h : a < 0) : nlz ⟨a, 0⟩ = some ⟨-1, 0⟩ := by
  have hne : (⟨a, 0⟩ : Vec2) ≠ 0 := by
    intro hy
    rw [Vec2.eq_zero_iff] at hy
    exact absurd hy.1 (ne_of_lt h)
  rw [nlz_of_ne_zero hne, len_x, abs_of_neg h]
  congr 1
  ext <;> simp
  rw [inv_neg, neg_mul, inv_mul_cancel₀ (ne_of_lt h)]

@[simp] theorem Vec2.add_mk (a b c d : ℝ) :
    (⟨a, b⟩ : Vec2) + ⟨c, d⟩ = ⟨a + c, b + d⟩ := rfl

@[simp] theorem Vec2.sub_mk (a b c d : ℝ) :
    (⟨a, b⟩ : Vec2) - ⟨c, d⟩ = ⟨a - c, b - d⟩ := rfl

@[simp] theorem Vec2.smul_mk (c a b : ℝ) :
    c • (⟨a, b⟩ : Vec2) = ⟨c * a, c * b⟩ := rfl

/-- Norm of a vector given in polar form. -/
theorem len_polar (b θ : ℝ) :
    len ⟨b * Real.cos θ, b * Real.sin θ⟩ = |b| := by
  unfold len
  have h : (b * Real.cos θ) ^ 2 + (b * Real.sin θ) ^ 2
      = b ^ 2 * (Real.cos θ ^ 2 + Real.sin θ ^ 2) := by ring
  rw [h, Real.cos_sq_add_sin_sq, mul_one, Real.sqrt_sq_eq_abs]

theorem take_pref {α : Type} (n : ℕ) (l : List α) : l.take n <+: l :=
  ⟨l.drop n, List.take_append_drop n l⟩

theorem trim_pref {α : Type} (n : ℕ) (l : List α) :
    (if l.length > n then l.take n else l) <+: l := by
  split
  · exact take_pref n l
  · exact ⟨[], List.append_nil l⟩

namespace Geo

theorem updateSegments_startPosition (s : Ray) :
    (UpdateSegments s).startPosition = s.startPosition := by
  unfold UpdateSegments; split <;> rfl

theorem updateSegments_baseSpeed (s : Ray) :
    (UpdateSegments s).baseSpeed = s.baseSpeed := by
  unfold UpdateSegments; split <;> rfl

theorem updateSegments_absorbed (s : Ray) :
    (UpdateSegments s).absorbed = s.absorbed := by
  unfold UpdateSegments; split <;> rfl

theorem updateSegments_maxSegments (s : Ray) :
    (UpdateSegments s).maxSegments = s.maxSegments := by
  unfold UpdateSegments; split <;> rfl

theorem updateSegments_timer (s : Ray) :
    (UpdateSegments s).timeSinceAbsorption = s.timeSinceAbsorption := by
  unfold UpdateSegments; split <;> rfl

theorem updateSegments_headPosition (s : Ray) :
    (UpdateSegments s).headPosition = s.headPosition := by
  unfold UpdateSegments; split <;> rfl

theorem updateSegments_headVelocity (s : Ray) :
    (UpdateSegments s).headVelocity = s.headVelocity := by
  unfold UpdateSegments; split <;> rfl

theorem updateSegments_of_absorbed {s : Ray} (habs : s.absorbed = true) :
    UpdateSegments s = s := by
  unfold UpdateSegments; rw [if_pos habs]

theorem updateSegments_len_le {s : Ray} (habs : s.absorbed = false) :
    (UpdateSegments s).segments.length ≤ s.maxSegments := by
  unfold UpdateSegments
  rw [if_neg (by simp [habs])]
  simp only
  split
  · simp [List.length_take]
  · omega

theorem updateSegments_sub (s : Ray) :
    ∃ t : List Vec2, t.length ≤ 1 ∧ (UpdateSegments s).segments <+: t ++ s.segments := by
  unfold UpdateSegments
  split
  · exact ⟨[], by norm_num, [], List.append_nil _⟩
  · rcases hseg : s.segments with _ | ⟨p0, rest⟩
    · refine ⟨[s.headPosition], by norm_num, ?_⟩
      simp only [hseg]
      exact trim_pref _ _
    · simp only [hseg]
      split
      · refine ⟨[s.headPosition], by norm_num, ?_⟩
        simpa using trim_pref s.maxSegments (s.headPosition :: p0 :: rest)
      · refine ⟨[], by norm_num, ?_⟩
        simpa using trim_pref s.maxSegments (p0 :: rest)

theorem reset_startPosition (n : Noise) (s : Ray) :
    (Reset n s).startPosition = s.startPosition := rfl

theorem reset_baseSpeed (n : Noise) (s : Ray) :
    (Reset n s).baseSpeed = s.baseSpeed := rfl

theorem reset_absorbed (n : Noise) (s : Ray) :
    (Reset n s).absorbed = false := rfl

theorem reset_maxSegments (n : Noise) (s : Ray) :
    (Reset n s).maxSegments = s.maxSegments := rfl

theorem reset_segments_length (n : Noise) (s : Ray) :
    (Reset n s).segments.length = 50 := by
  simp only [Reset]
  rw [List.length_map, List.length_range]

theorem reset_segments_ne_nil (n : Noise) (s : Ray) :
    (Reset n s).segments ≠ [] := by
  intro h
  have := congrArg List.length h
  rw [reset_segments_length] at this
  simp at this

theorem reset_speed {s : Ray} (hb : 0 ≤ s.baseSpeed) (n : Noise) :
    len (Reset n s).headVelocity = s.baseSpeed := by
  show len ⟨s.baseSpeed * Real.cos _, s.baseSpeed * Real.sin _⟩ = s.baseSpeed
  rw [len_polar, abs_of_nonneg hb]

theorem needsReset_of_absorbed {s : Ray} (habs : s.absorbed = true)
    (hseg : s.segments ≠ []) : NeedsReset s = false := by
  unfold NeedsReset
  rcases h : s.segments with _ | ⟨a, l⟩
  · exact absurd h hseg
  · simp [habs]

theorem needsReset_false_ne_nil {s : Ray} (h : NeedsReset s = false) :
    s.segments ≠ [] := by
  intro hnil
  unfold NeedsReset at h
  rw [hnil] at h
  simp at h

theorem shouldRespawn_false {s : Ray}
    (h : s.timeSinceAbsorption ≤ ABSORPTION_RESPAWN_TIME) : ShouldRespawn s = false := by
  unfold ShouldRespawn
  rw [decide_eq_false (not_lt.mpr h), Bool.and_false]

theorem shouldRespawn_true {s : Ray} (habs : s.absorbed = true)
    (h : ABSORPTION_RESPAWN_TIME < s.timeSinceAbsorption) : ShouldRespawn s = true := by
  unfold ShouldRespawn
  rw [habs, decide_eq_true h, Bool.true_and]

theorem propagate_absorbed {dt blackholeMass eventHorizon : ℝ} {bh : Vec2}
    {p : GravParams} {s : Ray} (habs : s.absorbed = true) :
    PropagateRay dt bh blackholeMass eventHorizon p s
      = some { s with timeSinceAbsorption := s.timeSinceAbsorption + dt } := by
  unfold PropagateRay
  rw [if_pos habs]

theorem propagate_active {dt blackholeMass eventHorizon : ℝ} {bh : Vec2}
    {p : GravParams} {s s1 : Ray} (habs : s.absorbed = false)
    (h : PropagateRay dt bh blackholeMass eventHorizon p s = some s1) :
    ∃ v1 q, IntegrateHead dt bh blackholeMass p s = some (v1, q) ∧
      s1.headVelocity = v1 ∧ s1.segments = s.segments ∧ s1.baseSpeed = s.baseSpeed ∧
      s1.maxSegments = s.maxSegments ∧
      ((len (s.headPosition - bh) < eventHorizon ∧ s1.absorbed = true ∧
          s1.timeSinceAbsorption = 0 ∧
          ∃ w, nlz (bh - q) = some w ∧ s1.headPosition = bh - eventHorizon • w) ∨
        (¬ len (s.headPosition - bh) < eventHorizon ∧ s1.absorbed = false ∧
          s1.headPosition = q ∧ s1.timeSinceAbsorption = s.timeSinceAbsorption)) := by
  unfold PropagateRay at h
  rw [if_neg (by simp [habs])] at h
  simp only [Option.bind_eq_some] at h
  obtain ⟨⟨v1, q⟩, hvq, h2⟩ := h
  refine ⟨v1, q, hvq, ?_⟩
  dsimp only at h2
  split at h2
  · obtain ⟨w, hw, hs1⟩ := Option.map_eq_some'.mp h2
    subst hs1
    refine ⟨rfl, rfl, rfl, rfl, Or.inl ⟨by assumption, rfl, rfl, w, hw, rfl⟩⟩
  · have hs1 := Option.some.inj h2
    subst hs1
    refine ⟨rfl, rfl, rfl, rfl, Or.inr ⟨by assumption, habs, rfl, rfl⟩⟩

theorem update_eq {dt blackholeMass eventHorizon : ℝ} {bh : Vec2}
    {p : GravParams} {n : Noise} {s s1 : Ray}
    (h : Update dt bh blackholeMass eventHorizon p n s = some s1) :
    ∃ sp, PropagateRay dt bh blackholeMass eventHorizon p s = some sp ∧
      s1 = (if NeedsReset (UpdateSegments sp) then Reset n (UpdateSegments sp)
            else if ShouldRespawn (UpdateSegments sp) then Reset n (UpdateSegments sp)
            else UpdateSegments sp) := by
  unfold Update at h
  obtain ⟨sp, hsp, hbody⟩ := Option.map_eq_some'.mp h
  exact ⟨sp, hsp, hbody.symm⟩

theorem update_absorbed_frozen {dt blackholeMass eventHorizon : ℝ} {bh : Vec2}
    {p : GravParams} {n : Noise} {s : Ray}
    (habs : s.absorbed = true) (hseg : s.segments ≠ [])
    (hle : s.timeSinceAbsorption + dt ≤ ABSORPTION_RESPAWN_TIME) :
    Update dt bh blackholeMass eventHorizon p n s
      = some { s with timeSinceAbsorption := s.timeSinceAbsorption + dt } := by
  unfold Update
  rw [propagate_absorbed habs, Option.map_some']
  have h1 : UpdateSegments { s with timeSinceAbsorption := s.timeSinceAbsorption + dt }
      = { s with timeSinceAbsorption := s.timeSinceAbsorption + dt } :=
    updateSegments_of_absorbed habs
  have hnr : NeedsReset { s with timeSinceAbsorption := s.timeSinceAbsorption + dt } = false :=
    needsReset_of_absorbed habs hseg
  have hns : ShouldRespawn { s with timeSinceAbsorption := s.timeSinceAbsorption + dt } = false :=
    shouldRespawn_false hle
  dsimp only
  rw [h1, hnr, hns]
  simp

theorem update_absorbed_respawn {dt blackholeMass eventHorizon : ℝ} {bh : Vec2}
    {p : GravParams} {n : Noise} {s : Ray}
    (habs : s.absorbed = true) (hseg : s.segments ≠ [])
    (hgt : ABSORPTION_RESPAWN_TIME < s.timeSinceAbsorption + dt) :
    Update dt bh blackholeMass eventHorizon p n s
      = some (Reset n { s with timeSinceAbsorption := s.timeSinceAbsorption + dt }) := by
  unfold Update
  rw [propagate_absorbed habs, Option.map_some']
  have h1 : UpdateSegments { s with timeSinceAbsorption := s.timeSinceAbsorption + dt }
      = { s with timeSinceAbsorption := s.timeSinceAbsorption + dt } :=
    updateSegments_of_absorbed habs
  have hnr : NeedsReset { s with timeSinceAbsorption := s.timeSinceAbsorption + dt } = false :=
    needsReset_of_absorbed habs hseg
  have hns : ShouldRespawn { s with timeSinceAbsorption := s.timeSinceAbsorption + dt } = true :=
    shouldRespawn_true habs hgt
  dsimp only
  rw [h1, hnr, hns]
  simp

end Geo

namespace Simple

theorem updateSegments_baseSpeedS (s : Ray) :
    (UpdateSegments s).baseSpeed = s.baseSpeed := by
  unfold UpdateSegments; split <;> rfl

theorem updateSegments_absorbedS (s : Ray) :
    (UpdateSegments s).absorbed = s.absorbed := by
  unfold UpdateSegments; split <;> rfl

theorem updateSegments_maxSegmentsS (s : Ray) :
    (UpdateSegments s).maxSegments = s.maxSegments := by
  unfold UpdateSegments; split <;> rfl

theorem updateSegments_timerS (s : Ray) :
    (UpdateSegments s).timeSinceAbsorption = s.timeSinceAbsorption := by
  unfold UpdateSegments; split <;> rfl

theorem updateSegments_headPositionS (s : Ray) :
    (UpdateSegments s).headPosition = s.headPosition := by
  unfold UpdateSegments; split <;> rfl

theorem updateSegments_headVelocityS (s : Ray) :
    (UpdateSegments s).headVelocity = s.headVelocity := by
  unfold UpdateSegments; split <;> rfl

theorem updateSegments_of_absorbedS {s : Ray} (habs : s.absorbed = true) :
    UpdateSegments s = s := by
  unfold UpdateSegments; rw [if_pos habs]

theorem updateSegments_len_leS {s : Ray} (habs : s.absorbed = false) :
    (UpdateSegments s).segments.length ≤ s.maxSegments := by
  unfold UpdateSegments
  rw [if_neg (by simp [habs])]
  simp only
  split
  · simp [List.length_take]
  · omega

theorem updateSegments_subS (s : Ray) :
    ∃ t : List Vec2, t.length ≤ 1 ∧ (UpdateSegments s).segments <+: t ++ s.segments := by
  unfold UpdateSegments
  split
  · exact ⟨[], by norm_num, [], List.append_nil _⟩
  · rcases hseg : s.segments with _ | ⟨p0, rest⟩
    · refine ⟨[s.headPosition], by norm_num, ?_⟩
      simp only [hseg]
      exact trim_pref _ _
    · simp only [hseg]
      split
      · refine ⟨[s.headPosition], by norm_num, ?_⟩
        simpa using trim_pref s.maxSegments (s.headPosition :: p0 :: rest)
      · refine ⟨[], by norm_num, ?_⟩
        simpa using trim_pref s.maxSegments (p0 :: rest)

theorem reset_baseSpeedS (n : Noise) (s : Ray) :
    (Reset n s).baseSpeed = s.baseSpeed := rfl

theorem reset_absorbedS (n : Noise) (s : Ray) :
    (Reset n s).absorbed = false := rfl

theorem reset_maxSegmentsS (n : Noise) (s : Ray) :
    (Reset n s).maxSegments = s.maxSegments := rfl

theorem reset_segments_lengthS (n : Noise) (s : Ray) :
    (Reset n s).segments.length = 10 := by
  simp only [Reset]
  rw [List.length_map, List.length_range]

theorem reset_segments_ne_nilS (n : Noise) (s : Ray) :
    (Reset n s).segments ≠ [] := by
  intro h
  have := congrArg List.length h
  rw [reset_segments_lengthS] at this
  simp at this

theorem reset_speedS {s : Ray} (hb : 0 ≤ s.baseSpeed) (n : Noise) :
    len (Reset n s).headVelocity = s.baseSpeed := by
  show len ⟨s.baseSpeed * Real.cos _, s.baseSpeed * Real.sin _⟩ = s.baseSpeed
  rw [len_polar, abs_of_nonneg hb]

theorem needsReset_of_absorbedS {s : Ray} (habs : s.absorbed = true)
    (hseg : s.segments ≠ []) : NeedsReset s = false := by
  unfold NeedsReset
  rcases h : s.segments with _ | ⟨a, l⟩
  · exact absurd h hseg
  · simp [habs]

theorem needsReset_false_ne_nilS {s : Ray} (h : NeedsReset s = false) :
    s.segments ≠ [] := by
  intro hnil
  unfold NeedsReset at h
  rw [hnil] at h
  simp at h

theorem shouldRespawn_falseS {s : Ray}
    (h : s.timeSinceAbsorption ≤ ABSORPTION_RESPAWN_TIME) : ShouldRespawn s = false := by
  unfold ShouldRespawn
  rw [decide_eq_false (not_lt.mpr h), Bool.and_false]

theorem shouldRespawn_trueS {s : Ray} (habs : s.absorbed = true)
    (h : ABSORPTION_RESPAWN_TIME < s.timeSinceAbsorption) : ShouldRespawn s = true := by
  unfold ShouldRespawn
  rw [habs, decide_eq_true h, Bool.true_and]

theorem propagate_absorbedS {dt blackholeMass eventHorizon : ℝ} {bh : Vec2}
    {p : GravParams} {s : Ray} (habs : s.absorbed = true) :
    PropagateRay dt bh blackholeMass eventHorizon p s
      = some { s with timeSinceAbsorption := s.timeSinceAbsorption + dt } := by
  unfold PropagateRay
  rw [if_pos habs]

theorem propagate_activeS {dt blackholeMass eventHorizon : ℝ} {bh : Vec2}
    {p : GravParams} {s s1 : Ray} (habs : s.absorbed = false)
    (h : PropagateRay dt bh blackholeMass eventHorizon p s = some s1) :
    ∃ v1 q, IntegrateHead dt bh blackholeMass p s = some (v1, q) ∧
      s1.headVelocity = v1 ∧ s1.segments = s.segments ∧ s1.baseSpeed = s.baseSpeed ∧
      s1.maxSegments = s.maxSegments ∧
      ((len (q - bh) < eventHorizon ∧ s1.absorbed = true ∧
          s1.timeSinceAbsorption = 0 ∧
          ∃ w, nlz (bh - q) = some w ∧ s1.headPosition = bh - eventHorizon • w) ∨
        (¬ len (q - bh) < eventHorizon ∧ s1.absorbed = false ∧
          s1.headPosition = q ∧ s1.timeSinceAbsorption = s.timeSinceAbsorption)) := by
  unfold PropagateRay at h
  rw [if_neg (by simp [habs])] at h
  simp only [Option.bind_eq_some] at h
  obtain ⟨⟨v1, q⟩, hvq, h2⟩ := h
  refine ⟨v1, q, hvq, ?_⟩
  dsimp only at h2
  split at h2
  · obtain ⟨w, hw, hs1⟩ := Option.map_eq_some'.mp h2
    subst hs1
    refine ⟨rfl, rfl, rfl, rfl, Or.inl ⟨by assumption, rfl, rfl, w, hw, rfl⟩⟩
  · have hs1 := Option.some.inj h2
    subst hs1
    refine ⟨rfl, rfl, rfl, rfl, Or.inr ⟨by assumption, habs, rfl, rfl⟩⟩

theorem update_eqS {dt blackholeMass eventHorizon : ℝ} {bh : Vec2}
    {p : GravParams} {n : Noise} {s s1 : Ray}
    (h : Update dt bh blackholeMass eventHorizon p n s = some s1) :
    ∃ sp, PropagateRay dt bh blackholeMass eventHorizon p s = some sp ∧
      s1 = (if NeedsReset (UpdateSegments sp) then Reset n (UpdateSegments sp)
            else if ShouldRespawn (UpdateSegments sp) then Reset n (UpdateSegments sp)
            else UpdateSegments sp) := by
  unfold Update at h
  obtain ⟨sp, hsp, hbody⟩ := Option.map_eq_some'.mp h
  exact ⟨sp, hsp, hbody.symm⟩

theorem update_absorbed_frozenS {dt blackholeMass eventHorizon : ℝ} {bh : Vec2}
    {p : GravParams} {n : Noise} {s : Ray}
    (habs : s.absorbed = true) (hseg : s.segments ≠ [])
    (hle : s.timeSinceAbsorption + dt ≤ ABSORPTION_RESPAWN_TIME) :
    Update dt bh blackholeMass eventHorizon p n s
      = some { s with timeSinceAbsorption := s.timeSinceAbsorption + dt } := by
  unfold Update
  rw [propagate_absorbedS habs, Option.map_some']
  have h1 : UpdateSegments { s with timeSinceAbsorption := s.timeSinceAbsorption + dt }
      = { s with timeSinceAbsorption := s.timeSinceAbsorption + dt } :=
    updateSegments_of_absorbedS habs
  have hnr : NeedsReset { s with timeSinceAbsorption := s.timeSinceAbsorption + dt } = false :=
    needsReset_of_absorbedS habs hseg
  have hns : ShouldRespawn { s with timeSinceAbsorption := s.timeSinceAbsorption + dt } = false :=
    shouldRespawn_falseS hle
  dsimp only
  rw [h1, hnr, hns]
  simp

theorem update_absorbed_respawnS {dt blackholeMass eventHorizon : ℝ} {bh : Vec2}
    {p : GravParams} {n : Noise} {s : Ray}
    (habs : s.absorbed = true) (hseg : s.segments ≠ [])
    (hgt : ABSORPTION_RESPAWN_TIME < s.timeSinceAbsorption + dt) :
    Update dt bh blackholeMass eventHorizon p n s
      = some (Reset n { s with timeSinceAbsorption := s.timeSinceAbsorption + dt }) := by
  unfold Update
  rw [propagate_absorbedS habs, Option.map_some']
  have h1 : UpdateSegments { s with timeSinceAbsorption := s.timeSinceAbsorption + dt }
      = { s with timeSinceAbsorption := s.timeSinceAbsorption + dt } :=
    updateSegments_of_absorbedS habs
  have hnr : NeedsReset { s with timeSinceAbsorption := s.timeSinceAbsorption + dt } = false :=
    needsReset_of_absorbedS habs hseg
  have hns : ShouldRespawn { s with timeSinceAbsorption := s.timeSinceAbsorption + dt } = true :=
    shouldRespawn_trueS habs hgt
  dsimp only
  rw [h1, hnr, hns]
  simp

end Simple

namespace Geo

theorem integrate_speed {dt blackholeMass : ℝ} {bh : Vec2} {p : GravParams} {s : Ray}
    (hv : len s.headVelocity = s.baseSpeed) (hb : 0 ≤ s.baseSpeed) :
    ∀ v1 q, IntegrateHead dt bh blackholeMass p s = some (v1, q) →
      len v1 = s.baseSpeed := by
  intro v1 q h
  unfold IntegrateHead at h
  simp only [Option.bind_eq_some] at h
  obtain ⟨acc, hacc, h2⟩ := h
  rw [Option.map_eq_some'] at h2
  obtain ⟨hv1, hhv1, hpair⟩ := h2
  injection hpair with e1 e2
  subst e1
  split at hhv1
  · obtain ⟨u, hu, rfl⟩ := Option.map_eq_some'.mp hhv1
    rw [len_smul, nlz_len hu, mul_one, abs_of_nonneg hb]
  · rw [← Option.some.inj hhv1]
    exact hv

theorem update_speed {dt blackholeMass eventHorizon : ℝ} {bh : Vec2}
    {p : GravParams} {n : Noise} {s : Ray}
    (habs : s.absorbed = false) (hv : len s.headVelocity = s.baseSpeed)
    (hb : 0 ≤ s.baseSpeed) :
    ∀ s1, Update dt bh blackholeMass eventHorizon p n s = some s1 →
      len s1.headVelocity = s.baseSpeed := by
  intro s1 h
  obtain ⟨sp, hsp, rfl⟩ := update_eq h
  obtain ⟨v1, q, hint, hvel, _, hbase, _, _⟩ := propagate_active habs hsp
  have hlenv1 : len v1 = s.baseSpeed := integrate_speed hv hb v1 q hint
  have hb2 : (UpdateSegments sp).baseSpeed = s.baseSpeed := by
    rw [updateSegments_baseSpeed, hbase]
  have hres : len (Reset n (UpdateSegments sp)).headVelocity = s.baseSpeed := by
    rw [reset_speed (by rw [hb2]; exact hb), hb2]
  split
  · exact hres
  · split
    · exact hres
    · rw [updateSegments_headVelocity, hvel, hlenv1]

end Geo

namespace Simple

theorem integrate_speedS {dt blackholeMass : ℝ} {bh : Vec2} {p : GravParams} {s : Ray}
    (hb : 0 ≤ s.baseSpeed) :
    ∀ v1 q, IntegrateHead dt bh blackholeMass p s = some (v1, q) →
      len v1 = s.baseSpeed := by
  intro v1 q h
  unfold IntegrateHead at h
  simp only [Option.bind_eq_some] at h
  obtain ⟨force, hforce, h2⟩ := h
  obtain ⟨velNorm, hvn, h3⟩ := h2
  rw [Option.map_eq_some'] at h3
  obtain ⟨u, hu, hpair⟩ := h3
  injection hpair with e1 e2
  subst e1
  rw [len_smul, nlz_len hu, mul_one, abs_of_nonneg hb]

theorem update_speedS {dt blackholeMass eventHorizon : ℝ} {bh : Vec2}
    {p : GravParams} {n : Noise} {s : Ray}
    (habs : s.absorbed = false) (hb : 0 ≤ s.baseSpeed) :
    ∀ s1, Update dt bh blackholeMass eventHorizon p n s = some s1 →
      len s1.headVelocity = s.baseSpeed := by
  intro s1 h
  obtain ⟨sp, hsp, rfl⟩ := update_eqS h
  obtain ⟨v1, q, hint, hvel, _, hbase, _, _⟩ := propagate_activeS habs hsp
  have hlenv1 : len v1 = s.baseSpeed := integrate_speedS hb v1 q hint
  have hb2 : (UpdateSegments sp).baseSpeed = s.baseSpeed := by
    rw [updateSegments_baseSpeedS, hbase]
  have hres : len (Reset n (UpdateSegments sp)).headVelocity = s.baseSpeed := by
    rw [reset_speedS (by rw [hb2]; exact hb), hb2]
  split
  · exact hres
  · split
    · exact hres
    · rw [updateSegments_headVelocityS, hvel, hlenv1]

end Simple

@[simp] theorem len_zero : len (0 : Vec2) = 0 := by
  unfold len
  simp

theorem spiralGo_length (count : ℕ) (raySpeed : ℝ) (segmentCount : ℕ)
    (radiusStart radiusEnd angleIncrement : ℝ) (aN sN : ℕ → ℝ) :
    ∀ (remaining i : ℕ) (currentAngle : ℝ),
      (Factory.SpiralGo count raySpeed segmentCount radiusStart radiusEnd angleIncrement
          aN sN i remaining currentAngle).length = remaining := by
  intro remaining
  induction remaining with
  | zero => intro i a; rfl
  | succ k ih => intro i a; simp [Factory.SpiralGo, ih]

/-- C9: for every strategy (left-edge, four-edge, radial, spiral) and every
count, `CreateRayBatch count raySpeed segmentCount` returns exactly `count`
ray descriptors; for the four-edge strategy the remainder rays handed to
the left, right and top edges sum with the four `count / 4` blocks to
exactly `count`. -/
theorem c9_spawn_batch_count (count segmentCount : ℕ)
    (raySpeed spawnRadius currentAngle radiusStart radiusEnd angleIncrement : ℝ)
    (pN aN sN rN : ℕ → ℝ) :
    (Factory.LeftEdgeCreateRayBatch count raySpeed segmentCount pN aN sN).length = count ∧
    (Factory.FourEdgeCreateRayBatch count raySpeed segmentCount pN aN sN).length = count ∧
    (Factory.RadialCreateRayBatch spawnRadius count raySpeed segmentCount rN aN sN).length
      = count ∧
    (Factory.SpiralCreateRayBatch currentAngle count raySpeed segmentCount radiusStart
        radiusEnd angleIncrement aN sN).length = count := by
  refine ⟨?_, ?_, ?_, ?_⟩
  · simp [Factory.LeftEdgeCreateRayBatch]
  · unfold Factory.FourEdgeCreateRayBatch
    simp only [List.length_append, List.length_map, List.length_range]
    split_ifs <;> omega
  · simp [Factory.RadialCreateRayBatch]
  · unfold Factory.SpiralCreateRayBatch
    exact spiralGo_length count raySpeed segmentCount radiusStart radiusEnd
      angleIncrement aN sN count 0 currentAngle

/-- The final magnitude clamp shared by both gravity functions: rescaling
to `maxForce` whenever the magnitude exceeds it yields a vector of
magnitude at most `maxForce`. -/
theorem len_clamp (M : ℝ) (hM : 0 ≤ M) (a : Vec2) :
    len (if len a > M then M • ((1 / len a) • a) else a) ≤ M := by
  split
  · rename_i h
    have hpos : 0 < len a := lt_of_le_of_lt hM h
    rw [len_smul, len_smul, abs_of_nonneg hM, abs_of_nonneg (by positivity)]
    rw [one_div, inv_mul_cancel₀ (ne_of_gt hpos), mul_one]
  · rename_i h
    exact le_of_not_lt h

/-- C2: the vector returned by `CalculateGravitationalForce` and the vector
returned by `CalculateGeodesicDeflection` have magnitude at most
`maxForce`; the cap is the final clamp.  Stated under the documented
parameter preconditions of the specification (nonnegative mass, gravity
multiplier and force cap). -/
theorem c2_force_bound (position velocity blackholePos : Vec2)
    (blackholeMass angularMomentum : ℝ) (p : GravParams)
    (hmass : 0 ≤ blackholeMass) (hmult : 0 ≤ p.gravityMultiplier)
    (hmax : 0 ≤ p.maxForce) :
    (∀ f, Simple.CalculateGravitationalForce position blackholePos blackholeMass p = some f →
      len f ≤ p.maxForce) ∧
    (∀ a, Geo.CalculateGeodesicDeflection position velocity blackholePos blackholeMass
        angularMomentum p = some a → len a ≤ p.maxForce) := by
  constructor
  · intro f hf
    simp only [Simple.CalculateGravitationalForce, Option.map_eq_some'] at hf
    obtain ⟨u, hu, hf⟩ := hf
    subst hf
    rw [len_smul, nlz_len hu, mul_one]
    have hd0 : 0 ≤ (if len (blackholePos - position) < p.minDistance then p.minDistance
        else len (blackholePos - position)) := by
      split
      · rename_i hlt
        exact le_of_lt (lt_of_le_of_lt (len_nonneg _) hlt)
      · exact len_nonneg _
    have hmag : 0 ≤ blackholeMass * p.gravityMultiplier
        / (if len (blackholePos - position) < p.minDistance then p.minDistance
            else len (blackholePos - position)) ^ p.forceExponent :=
      div_nonneg (mul_nonneg hmass hmult) (Real.rpow_nonneg hd0 _)
    rw [abs_of_nonneg (le_min hmag hmax)]
    exact min_le_right _ _
  · intro a ha
    simp only [Geo.CalculateGeodesicDeflection] at ha
    split at ha <;> split at ha
    all_goals first
      | (rw [Option.map_eq_some'] at ha
         obtain ⟨u, hu, ha⟩ := ha
         subst ha
         rw [len_smul, nlz_len hu, mul_one, abs_of_nonneg hmax])
      | (have ha' := Option.some.inj ha
         subst ha'
         exact len_clamp p.maxForce hmax _)

/-- C3: the claim states that for distance zero, in particular the ray
position exactly at the black-hole center, both gravity functions return
finite non-NaN vectors because the distance is clamped before any
division.  The clamp does guard the magnitude computation, but the
direction is computed as `glm::normalize(toBlackhole)` on the raw,
unclamped vector: at the exact center this normalizes the zero vector,
multiplying it by `inversesqrt 0`, so the returned components are NaN in
IEEE arithmetic.  In the model the undefined normalization is `none`:
with the default parameters and mass 1, both functions are undefined at
the exact center. -/
theorem c3_nan_at_center :
    Simple.CalculateGravitationalForce ⟨0, 0⟩ ⟨0, 0⟩ 1 defaultParams = none ∧
    Geo.CalculateGeodesicDeflection ⟨0, 0⟩ ⟨1, 0⟩ ⟨0, 0⟩ 1 0 defaultParams = none := by
  have hz : (⟨0, 0⟩ : Vec2) - ⟨0, 0⟩ = 0 := by ext <;> simp
  constructor
  · simp [Simple.CalculateGravitationalForce, hz, nlz]
  · norm_num [Geo.CalculateGeodesicDeflection, hz, len_zero, defaultParams, nlz]

namespace Geo

theorem propagate_segments {dt blackholeMass eventHorizon : ℝ} {bh : Vec2}
    {p : GravParams} {s s1 : Ray}
    (h : PropagateRay dt bh blackholeMass eventHorizon p s = some s1) :
    s1.segments = s.segments := by
  cases habs : s.absorbed
  · obtain ⟨_, _, _, _, hsegs, _⟩ := propagate_active habs h
    exact hsegs
  · rw [propagate_absorbed habs] at h
    rw [← Option.some.inj h]

theorem propagate_maxSegments {dt blackholeMass eventHorizon : ℝ} {bh : Vec2}
    {p : GravParams} {s s1 : Ray}
    (h : PropagateRay dt bh blackholeMass eventHorizon p s = some s1) :
    s1.maxSegments = s.maxSegments := by
  cases habs : s.absorbed
  · obtain ⟨_, _, _, _, _, _, hmax, _⟩ := propagate_active habs h
    exact hmax
  · rw [propagate_absorbed habs] at h
    rw [← Option.some.inj h]

end Geo

namespace Simple

theorem propagate_segmentsS {dt blackholeMass eventHorizon : ℝ} {bh : Vec2}
    {p : GravParams} {s s1 : Ray}
    (h : PropagateRay dt bh blackholeMass eventHorizon p s = some s1) :
    s1.segments = s.segments := by
  cases habs : s.absorbed
  · obtain ⟨_, _, _, _, hsegs, _⟩ := propagate_activeS habs h
    exact hsegs
  · rw [propagate_absorbedS habs] at h
    rw [← Option.some.inj h]

theorem propagate_maxSegmentsS {dt blackholeMass eventHorizon : ℝ} {bh : Vec2}
    {p : GravParams} {s s1 : Ray}
    (h : PropagateRay dt bh blackholeMass eventHorizon p s = some s1) :
    s1.maxSegments = s.maxSegments := by
  cases habs : s.absorbed
  · obtain ⟨_, _, _, _, _, _, hmax, _⟩ := propagate_activeS habs h
    exact hmax
  · rw [propagate_absorbedS habs] at h
    rw [← Option.some.inj h]

end Simple

/-- C1: for a non-absorbed ray, in both the geodesic and the simple
integration mode, the magnitude of `headVelocity` immediately after
`Update` equals the ray base speed, assuming the base speed was unchanged
since the previous step (so that the incoming velocity still has magnitude
`baseSpeed`).  The renormalization inside `PropagateRay`, the untouched
velocity of the small-speed guard branch, and the velocity rebuilt by an
in-call `Reset` all yield magnitude exactly `baseSpeed` in the real-number
model (hence within any floating-point tolerance). -/
theorem c1_speed_invariance (dt blackholeMass eventHorizon : ℝ) (bh : Vec2)
    (p : GravParams) (n : Noise) (sG : Geo.Ray) (sS : Simple.Ray)
    (hG : sG.absorbed = false) (hvG : len sG.headVelocity = sG.baseSpeed)
    (hbG : 0 ≤ sG.baseSpeed)
    (hS : sS.absorbed = false) (_hvS : len sS.headVelocity = sS.baseSpeed)
    (hbS : 0 ≤ sS.baseSpeed) :
    (∀ s1, Geo.Update dt bh blackholeMass eventHorizon p n sG = some s1 →
      len s1.headVelocity = sG.baseSpeed) ∧
    (∀ s1, Simple.Update dt bh blackholeMass eventHorizon p n sS = some s1 →
      len s1.headVelocity = sS.baseSpeed) :=
  ⟨Geo.update_speed hG hvG hbG, Simple.update_speedS hS hbS⟩

theorem c1_speed_invariance_witness :
    (wRayG.absorbed = false ∧ len wRayG.headVelocity = wRayG.baseSpeed ∧
      (0:ℝ) ≤ wRayG.baseSpeed ∧
      wRayS.absorbed = false ∧ len wRayS.headVelocity = wRayS.baseSpeed ∧
      (0:ℝ) ≤ wRayS.baseSpeed) ∧
    (∀ s1, Geo.Update 1 ⟨0, 0⟩ (7/64) (1/5) defaultParams ⟨0, 0, 0⟩ wRayG = some s1 →
      len s1.headVelocity = wRayG.baseSpeed) ∧
    (∀ s1, Simple.Update 1 ⟨0, 0⟩ (7/64) (1/5) defaultParams ⟨0, 0, 0⟩ wRayS = some s1 →
      len s1.headVelocity = wRayS.baseSpeed) := by
  have hlen : len (⟨-1, 0⟩ : Vec2) = 1 := by rw [len_x]; norm_num
  have h := c1_speed_invariance 1 (7/64) (1/5) ⟨0, 0⟩ defaultParams ⟨0, 0, 0⟩ wRayG wRayS
    rfl hlen (by norm_num [wRayG]) rfl hlen (by norm_num [wRayS])
  exact ⟨⟨rfl, hlen, by norm_num [wRayG], rfl, hlen, by norm_num [wRayS]⟩, h.1, h.2⟩

/-- C10: the trail is nonempty after construction, after `Reset`, and after
every completed `Update`, in both variants: `Reset` always rebuilds the
fixed-size backward initial trail, and an `Update` whose trimmed trail came
out empty necessarily sees `NeedsReset` answer true through its empty-trail
branch and therefore ends in a `Reset`.  Consequently `GetSegments()[0]`
exists after every public operation, and `NeedsReset` can only answer true
through the empty-trail branch transiently inside `Update`, never on a
state produced by a public operation. -/
theorem c10_trail_nonempty (dt blackholeMass eventHorizon speed angle : ℝ)
    (bh startPos : Vec2) (segmentCount : ℕ) (p : GravParams) (n : Noise)
    (sG : Geo.Ray) (sS : Simple.Ray) :
    (Geo.Reset n sG).segments ≠ [] ∧
    (Simple.Reset n sS).segments ≠ [] ∧
    (Geo.mkLightRay startPos speed segmentCount angle n).segments ≠ [] ∧
    (Simple.mkLightRay startPos speed segmentCount angle n).segments ≠ [] ∧
    (∀ s1, Geo.Update dt bh blackholeMass eventHorizon p n sG = some s1 →
      s1.segments ≠ []) ∧
    (∀ s1, Simple.Update dt bh blackholeMass eventHorizon p n sS = some s1 →
      s1.segments ≠ []) := by
  refine ⟨Geo.reset_segments_ne_nil n sG, Simple.reset_segments_ne_nilS n sS,
    Geo.reset_segments_ne_nil n _, Simple.reset_segments_ne_nilS n _, ?_, ?_⟩
  · intro s1 h
    obtain ⟨sp, hsp, rfl⟩ := Geo.update_eq h
    split
    · exact Geo.reset_segments_ne_nil n _
    · split
      · exact Geo.reset_segments_ne_nil n _
      · rename_i hnr _
        exact Geo.needsReset_false_ne_nil (Bool.eq_false_iff.mpr hnr)
  · intro s1 h
    obtain ⟨sp, hsp, rfl⟩ := Simple.update_eqS h
    split
    · exact Simple.reset_segments_ne_nilS n _
    · split
      · exact Simple.reset_segments_ne_nilS n _
      · rename_i hnr _
        exact Simple.needsReset_false_ne_nilS (Bool.eq_false_iff.mpr hnr)

theorem c10_trail_nonempty_witness :
    (∀ s1, Geo.Update 1 ⟨0, 0⟩ (7/64) (1/5) defaultParams ⟨0, 0, 0⟩ wRayG = some s1 →
      s1.segments ≠ []) ∧
    (∀ s1, Simple.Update 1 ⟨0, 0⟩ (7/64) (1/5) defaultParams ⟨0, 0, 0⟩ wRayS = some s1 →
      s1.segments ≠ []) := by
  have h := c10_trail_nonempty 1 (7/64) (1/5) 1 0 ⟨0, 0⟩ ⟨0, 0⟩ 5 defaultParams
    ⟨0, 0, 0⟩ wRayG wRayS
  exact ⟨h.2.2.2.2.1, h.2.2.2.2.2⟩

/-- C7: across one `Update` in which the ray is not reset, the trail can
only gain at most one new point at the front and lose points from the
tail: the resulting segments list is a prefix of `t ++ old` for some
front-extension `t` of length at most one, so every surviving old point
keeps exactly its coordinates and its order.  When the `Update` does reset
the ray, the result is a `Reset` state (second disjunct). -/
theorem c7_trail_immutability (dt blackholeMass eventHorizon : ℝ) (bh : Vec2)
    (p : GravParams) (n : Noise) (sG : Geo.Ray) (sS : Simple.Ray) :
    (∀ s1, Geo.Update dt bh blackholeMass eventHorizon p n sG = some s1 →
      (∃ t : List Vec2, t.length ≤ 1 ∧ s1.segments <+: t ++ sG.segments) ∨
      ∃ s2, s1 = Geo.Reset n s2) ∧
    (∀ s1, Simple.Update dt bh blackholeMass eventHorizon p n sS = some s1 →
      (∃ t : List Vec2, t.length ≤ 1 ∧ s1.segments <+: t ++ sS.segments) ∨
      ∃ s2, s1 = Simple.Reset n s2) := by
  constructor
  · intro s1 h
    obtain ⟨sp, hsp, rfl⟩ := Geo.update_eq h
    split
    · exact Or.inr ⟨_, rfl⟩
    · split
      · exact Or.inr ⟨_, rfl⟩
      · obtain ⟨t, ht, hpref⟩ := Geo.updateSegments_sub sp
        rw [Geo.propagate_segments hsp] at hpref
        exact Or.inl ⟨t, ht, hpref⟩
  · intro s1 h
    obtain ⟨sp, hsp, rfl⟩ := Simple.update_eqS h
    split
    · exact Or.inr ⟨_, rfl⟩
    · split
      · exact Or.inr ⟨_, rfl⟩
      · obtain ⟨t, ht, hpref⟩ := Simple.updateSegments_subS sp
        rw [Simple.propagate_segmentsS hsp] at hpref
        exact Or.inl ⟨t, ht, hpref⟩

theorem c7_trail_immutability_witness :
    (∀ s1, Geo.Update 1 ⟨0, 0⟩ (7/64) (1/5) defaultParams ⟨0, 0, 0⟩ wRayG = some s1 →
      (∃ t : List Vec2, t.length ≤ 1 ∧ s1.segments <+: t ++ wRayG.segments) ∨
      ∃ s2, s1 = Geo.Reset ⟨0, 0, 0⟩ s2) ∧
    (∀ s1, Simple.Update 1 ⟨0, 0⟩ (7/64) (1/5) defaultParams ⟨0, 0, 0⟩ wRayS = some s1 →
      (∃ t : List Vec2, t.length ≤ 1 ∧ s1.segments <+: t ++ wRayS.segments) ∨
      ∃ s2, s1 = Simple.Reset ⟨0, 0, 0⟩ s2) :=
  c7_trail_immutability 1 (7/64) (1/5) ⟨0, 0⟩ defaultParams ⟨0, 0, 0⟩ wRayG wRayS

/-- C8 counterexample: the geodesic-variant constructor with
`segmentCount = 1` sets `maxSegments = 10` but `Reset` builds the fixed
50-point initial trail, so immediately after construction the trail length
exceeds `maxSegments`. -/
theorem c8_trail_bound_counterexample :
    ¬ ((Geo.mkLightRay ⟨-2, 0⟩ 1 1 0 ⟨0, 0, 0⟩).segments.length
        ≤ (Geo.mkLightRay ⟨-2, 0⟩ 1 1 0 ⟨0, 0, 0⟩).maxSegments) := by
  have h1 : (Geo.mkLightRay ⟨-2, 0⟩ 1 1 0 ⟨0, 0, 0⟩).segments.length = 50 :=
    Geo.reset_segments_length _ _
  have h2 : (Geo.mkLightRay ⟨-2, 0⟩ 1 1 0 ⟨0, 0, 0⟩).maxSegments = 10 := rfl
  rw [h1, h2]
  norm_num

/-- C8 amended: every non-reset `Update` that ends with the ray
non-absorbed (so the `Update` found the ray active and did not absorb it)
ends with the trim of `UpdateSegments` enforcing trail length at most
`maxSegments`; every non-reset `Update` that ends with the ray absorbed
(it found or left the ray absorbed) keeps the trail exactly unchanged;
and a `Reset` (also the one called by the constructor, for every
`segmentCount`) rebuilds a fixed-length initial trail of 50 points in the
geodesic variant and 10 points in the simple variant, which exceeds
`maxSegments` whenever `segmentCount` is small.  The disjuncts are tagged
by the resulting absorbed flag, so an active, non-reset `Update` cannot
escape the bound through the unchanged-trail case. -/
theorem c8_trail_bound_amended (dt blackholeMass eventHorizon : ℝ) (bh : Vec2)
    (p : GravParams) (n : Noise) (sG : Geo.Ray) (sS : Simple.Ray) :
    (∀ s1, Geo.Update dt bh blackholeMass eventHorizon p n sG = some s1 →
      (s1.absorbed = false ∧ s1.segments.length ≤ sG.maxSegments) ∨
      (s1.absorbed = true ∧ s1.segments = sG.segments) ∨
      ∃ s2, s1 = Geo.Reset n s2) ∧
    (∀ s1, Simple.Update dt bh blackholeMass eventHorizon p n sS = some s1 →
      (s1.absorbed = false ∧ s1.segments.length ≤ sS.maxSegments) ∨
      (s1.absorbed = true ∧ s1.segments = sS.segments) ∨
      ∃ s2, s1 = Simple.Reset n s2) ∧
    (∀ s2 : Geo.Ray, (Geo.Reset n s2).segments.length = 50) ∧
    (∀ s2 : Simple.Ray, (Simple.Reset n s2).segments.length = 10) := by
  refine ⟨?_, ?_, fun s2 => Geo.reset_segments_length n s2,
    fun s2 => Simple.reset_segments_lengthS n s2⟩
  · intro s1 h
    obtain ⟨sp, hsp, rfl⟩ := Geo.update_eq h
    split
    · exact Or.inr (Or.inr ⟨_, rfl⟩)
    · split
      · exact Or.inr (Or.inr ⟨_, rfl⟩)
      · cases habs : sp.absorbed
        · refine Or.inl ⟨?_, ?_⟩
          · rw [Geo.updateSegments_absorbed]
            exact habs
          · rw [← Geo.propagate_maxSegments hsp]
            exact Geo.updateSegments_len_le habs
        · refine Or.inr (Or.inl ⟨?_, ?_⟩)
          · rw [Geo.updateSegments_absorbed]
            exact habs
          · rw [Geo.updateSegments_of_absorbed habs]
            exact Geo.propagate_segments hsp
  · intro s1 h
    obtain ⟨sp, hsp, rfl⟩ := Simple.update_eqS h
    split
    · exact Or.inr (Or.inr ⟨_, rfl⟩)
    · split
      · exact Or.inr (Or.inr ⟨_, rfl⟩)
      · cases habs : sp.absorbed
        · refine Or.inl ⟨?_, ?_⟩
          · rw [Simple.updateSegments_absorbedS]
            exact habs
          · rw [← Simple.propagate_maxSegmentsS hsp]
            exact Simple.updateSegments_len_leS habs
        · refine Or.inr (Or.inl ⟨?_, ?_⟩)
          · rw [Simple.updateSegments_absorbedS]
            exact habs
          · rw [Simple.updateSegments_of_absorbedS habs]
            exact Simple.propagate_segmentsS hsp

theorem c8_trail_bound_amended_witness :
    (∀ s1, Geo.Update 1 ⟨0, 0⟩ (7/64) (1/5) defaultParams ⟨0, 0, 0⟩ wRayG = some s1 →
      (s1.absorbed = false ∧ s1.segments.length ≤ wRayG.maxSegments) ∨
      (s1.absorbed = true ∧ s1.segments = wRayG.segments) ∨
      ∃ s2, s1 = Geo.Reset ⟨0, 0, 0⟩ s2) ∧
    (∀ s1, Simple.Update 1 ⟨0, 0⟩ (7/64) (1/5) defaultParams ⟨0, 0, 0⟩ wRayS = some s1 →
      (s1.absorbed = false ∧ s1.segments.length ≤ wRayS.maxSegments) ∨
      (s1.absorbed = true ∧ s1.segments = wRayS.segments) ∨
      ∃ s2, s1 = Simple.Reset ⟨0, 0, 0⟩ s2) ∧
    (∀ s2 : Geo.Ray, (Geo.Reset ⟨0, 0, 0⟩ s2).segments.length = 50) ∧
    (∀ s2 : Simple.Ray, (Simple.Reset ⟨0, 0, 0⟩ s2).segments.length = 10) :=
  c8_trail_bound_amended 1 (7/64) (1/5) ⟨0, 0⟩ defaultParams ⟨0, 0, 0⟩ wRayG wRayS

/-- C5: an absorbed ray whose absorption timer, after accumulating the
step `deltaTime`, stays at or below `ABSORPTION_RESPAWN_TIME` remains
absorbed after `Update`; on the `Update` whose accumulation pushes the
timer strictly past the threshold, `ShouldRespawn` triggers a `Reset` and
the ray ends the call with `absorbed = false`.  Both variants.  The
nonempty-trail hypotheses reflect the invariant of C10. -/
theorem c5_respawn_timing (dt blackholeMass eventHorizon : ℝ) (bh : Vec2)
    (p : GravParams) (n : Noise) (sG : Geo.Ray) (sS : Simple.Ray)
    (hGa : sG.absorbed = true) (hGseg : sG.segments ≠ [])
    (hSa : sS.absorbed = true) (hSseg : sS.segments ≠ []) :
    (sG.timeSinceAbsorption + dt ≤ ABSORPTION_RESPAWN_TIME →
      ∀ s1, Geo.Update dt bh blackholeMass eventHorizon p n sG = some s1 →
        s1.absorbed = true) ∧
    (ABSORPTION_RESPAWN_TIME < sG.timeSinceAbsorption + dt →
      ∀ s1, Geo.Update dt bh blackholeMass eventHorizon p n sG = some s1 →
        s1.absorbed = false) ∧
    (sS.timeSinceAbsorption + dt ≤ ABSORPTION_RESPAWN_TIME →
      ∀ s1, Simple.Update dt bh blackholeMass eventHorizon p n sS = some s1 →
        s1.absorbed = true) ∧
    (ABSORPTION_RESPAWN_TIME < sS.timeSinceAbsorption + dt →
      ∀ s1, Simple.Update dt bh blackholeMass eventHorizon p n sS = some s1 →
        s1.absorbed = false) := by
  refine ⟨?_, ?_, ?_, ?_⟩
  · intro hle s1 h
    rw [Geo.update_absorbed_frozen hGa hGseg hle] at h
    rw [← Option.some.inj h]
    exact hGa
  · intro hgt s1 h
    rw [Geo.update_absorbed_respawn hGa hGseg hgt] at h
    rw [← Option.some.inj h]
    exact Geo.reset_absorbed _ _
  · intro hle s1 h
    rw [Simple.update_absorbed_frozenS hSa hSseg hle] at h
    rw [← Option.some.inj h]
    exact hSa
  · intro hgt s1 h
    rw [Simple.update_absorbed_respawnS hSa hSseg hgt] at h
    rw [← Option.some.inj h]
    exact Simple.reset_absorbedS _ _

theorem c5_respawn_timing_witness :
    (wAbsG.timeSinceAbsorption + 1/20 ≤ ABSORPTION_RESPAWN_TIME ∧
      ABSORPTION_RESPAWN_TIME < wAbsG.timeSinceAbsorption + 1/5) ∧
    (∀ s1, Geo.Update (1/20) ⟨0, 0⟩ 1 (1/5) defaultParams ⟨0, 0, 0⟩ wAbsG = some s1 →
      s1.absorbed = true) ∧
    (∀ s1, Geo.Update (1/5) ⟨0, 0⟩ 1 (1/5) defaultParams ⟨0, 0, 0⟩ wAbsG = some s1 →
      s1.absorbed = false) ∧
    (∀ s1, Simple.Update (1/20) ⟨0, 0⟩ 1 (1/5) defaultParams ⟨0, 0, 0⟩ wAbsS = some s1 →
      s1.absorbed = true) ∧
    (∀ s1, Simple.Update (1/5) ⟨0, 0⟩ 1 (1/5) defaultParams ⟨0, 0, 0⟩ wAbsS = some s1 →
      s1.absorbed = false) := by
  have hne : wAbsG.segments ≠ [] := by simp [wAbsG]
  have hneS : wAbsS.segments ≠ [] := by simp [wAbsS]
  have h1 := c5_respawn_timing (1/20) 1 (1/5) ⟨0, 0⟩ defaultParams ⟨0, 0, 0⟩ wAbsG wAbsS
    rfl hne rfl hneS
  have h2 := c5_respawn_timing (1/5) 1 (1/5) ⟨0, 0⟩ defaultParams ⟨0, 0, 0⟩ wAbsG wAbsS
    rfl hne rfl hneS
  have hle : wAbsG.timeSinceAbsorption + 1/20 ≤ ABSORPTION_RESPAWN_TIME := by
    norm_num [wAbsG, ABSORPTION_RESPAWN_TIME]
  have hgt : ABSORPTION_RESPAWN_TIME < wAbsG.timeSinceAbsorption + 1/5 := by
    norm_num [wAbsG, ABSORPTION_RESPAWN_TIME]
  have hleS : wAbsS.timeSinceAbsorption + 1/20 ≤ ABSORPTION_RESPAWN_TIME := by
    norm_num [wAbsS, ABSORPTION_RESPAWN_TIME]
  have hgtS : ABSORPTION_RESPAWN_TIME < wAbsS.timeSinceAbsorption + 1/5 := by
    norm_num [wAbsS, ABSORPTION_RESPAWN_TIME]
  exact ⟨⟨hle, hgt⟩, h1.1 hle, h2.2.1 hgt, h1.2.2.1 hleS, h2.2.2.2 hgtS⟩

/-- C6: an `Update` on an absorbed ray whose timer does not cross the
respawn threshold changes only the `timeSinceAbsorption` accumulator; the
resulting state is literally the input state with the timer increased, so
`headPosition`, `headVelocity`, the segments list, `baseSpeed` and the
`absorbed` flag are all unchanged.  Both variants.  The nonempty-trail
hypotheses reflect the invariant of C10. -/
theorem c6_absorbed_frame_effect (dt blackholeMass eventHorizon : ℝ) (bh : Vec2)
    (p : GravParams) (n : Noise) (sG : Geo.Ray) (sS : Simple.Ray)
    (hGa : sG.absorbed = true) (hGseg : sG.segments ≠ [])
    (hGle : sG.timeSinceAbsorption + dt ≤ ABSORPTION_RESPAWN_TIME)
    (hSa : sS.absorbed = true) (hSseg : sS.segments ≠ [])
    (hSle : sS.timeSinceAbsorption + dt ≤ ABSORPTION_RESPAWN_TIME) :
    Geo.Update dt bh blackholeMass eventHorizon p n sG
      = some { sG with timeSinceAbsorption := sG.timeSinceAbsorption + dt } ∧
    Simple.Update dt bh blackholeMass eventHorizon p n sS
      = some { sS with timeSinceAbsorption := sS.timeSinceAbsorption + dt } :=
  ⟨Geo.update_absorbed_frozen hGa hGseg hGle,
    Simple.update_absorbed_frozenS hSa hSseg hSle⟩

theorem c6_absorbed_frame_effect_witness :
    Geo.Update (1/20) ⟨0, 0⟩ 1 (1/5) defaultParams ⟨0, 0, 0⟩ wAbsG
      = some { wAbsG with timeSinceAbsorption := wAbsG.timeSinceAbsorption + 1/20 } ∧
    Simple.Update (1/20) ⟨0, 0⟩ 1 (1/5) defaultParams ⟨0, 0, 0⟩ wAbsS
      = some { wAbsS with timeSinceAbsorption := wAbsS.timeSinceAbsorption + 1/20 } :=
  c6_absorbed_frame_effect (1/20) 1 (1/5) ⟨0, 0⟩ defaultParams ⟨0, 0, 0⟩ wAbsG wAbsS
    rfl (by simp [wAbsG]) (by norm_num [wAbsG, ABSORPTION_RESPAWN_TIME])
    rfl (by simp [wAbsS]) (by norm_num [wAbsS, ABSORPTION_RESPAWN_TIME])

theorem nlz_some_val {v u : Vec2} (h : nlz v = some u) : u = (len v)⁻¹ • v := by
  unfold nlz at h
  split at h
  · exact absurd h (by simp)
  · exact (Option.some.inj h).symm

theorem len_sub_comm (a b : Vec2) : len (a - b) = len (b - a) := by
  unfold len
  congr 1
  simp
  ring

/-- C4 amended: absorption happens on the `Update` call during which the
distance that the variant actually checks falls below the event horizon.
The simple variant checks the post-move head distance, so a head that
moves inside the horizon is absorbed on that same call; the geodesic
variant checks the distance measured at the start of `PropagateRay`,
before the move, so it absorbs on the `Update` call that starts inside the
horizon (one call after the head first ends a call inside it).  In both
variants, on the absorbing call the head is relocated to exactly
`eventHorizon` distance from the black-hole center (for the simple variant
we also prove the relocation is along the black-hole-to-post-move-head
line), and the trail is left unchanged from that call on until a reset. -/
theorem c4_absorption_amended (dt blackholeMass eventHorizon : ℝ) (bh : Vec2)
    (p : GravParams) (n : Noise) (sG : Geo.Ray) (sS : Simple.Ray)
    (hhor : 0 ≤ eventHorizon)
    (hGa : sG.absorbed = false) (hGseg : sG.segments ≠ [])
    (hGdist : len (sG.headPosition - bh) < eventHorizon)
    (hSa : sS.absorbed = false) (hSseg : sS.segments ≠ [])
    (v1 q : Vec2) (hSint : Simple.IntegrateHead dt bh blackholeMass p sS = some (v1, q))
    (hSdist : len (q - bh) < eventHorizon) :
    (∀ s1, Geo.Update dt bh blackholeMass eventHorizon p n sG = some s1 →
      s1.absorbed = true ∧ len (s1.headPosition - bh) = eventHorizon ∧
      s1.segments = sG.segments) ∧
    (∀ s1, Simple.Update dt bh blackholeMass eventHorizon p n sS = some s1 →
      s1.absorbed = true ∧ len (s1.headPosition - bh) = eventHorizon ∧
      s1.segments = sS.segments ∧
      s1.headPosition - bh = (eventHorizon / len (q - bh)) • (q - bh)) := by
  constructor
  · intro s1 h
    obtain ⟨sp, hsp, rfl⟩ := Geo.update_eq h
    obtain ⟨v1', q', hint, hvel, hsegs, hbase, hmax, hdisj⟩ := Geo.propagate_active hGa hsp
    rcases hdisj with ⟨_, habs1, htimer, w, hw, hpos⟩ | ⟨hnot, _⟩
    · have hupd : Geo.UpdateSegments sp = sp := Geo.updateSegments_of_absorbed habs1
      have hnr : Geo.NeedsReset (Geo.UpdateSegments sp) = false := by
        rw [hupd]
        exact Geo.needsReset_of_absorbed habs1 (hsegs ▸ hGseg)
      have hsr : Geo.ShouldRespawn (Geo.UpdateSegments sp) = false := by
        rw [hupd]
        exact Geo.shouldRespawn_false (by rw [htimer]; norm_num [ABSORPTION_RESPAWN_TIME])
      rw [if_neg (by rw [hnr]; simp), if_neg (by rw [hsr]; simp), hupd]
      refine ⟨habs1, ?_, hsegs⟩
      rw [hpos]
      have hv : (bh - eventHorizon • w) - bh = (-eventHorizon) • w := by
        ext <;> simp
      rw [hv, len_smul, nlz_len hw, mul_one, abs_neg, abs_of_nonneg hhor]
    · exact absurd hGdist hnot
  · intro s1 h
    obtain ⟨sp, hsp, rfl⟩ := Simple.update_eqS h
    obtain ⟨v1', q', hint, hvel, hsegs, hbase, hmax, hdisj⟩ := Simple.propagate_activeS hSa hsp
    rw [hSint] at hint
    have e := Option.some.inj hint
    injection e with e1 e2
    subst e1
    subst e2
    rcases hdisj with ⟨_, habs1, htimer, w, hw, hpos⟩ | ⟨hnot, _⟩
    · have hupd : Simple.UpdateSegments sp = sp := Simple.updateSegments_of_absorbedS habs1
      have hnr : Simple.NeedsReset (Simple.UpdateSegments sp) = false := by
        rw [hupd]
        exact Simple.needsReset_of_absorbedS habs1 (hsegs ▸ hSseg)
      have hsr : Simple.ShouldRespawn (Simple.UpdateSegments sp) = false := by
        rw [hupd]
        exact Simple.shouldRespawn_falseS (by rw [htimer]; norm_num [ABSORPTION_RESPAWN_TIME])
      rw [if_neg (by rw [hnr]; simp), if_neg (by rw [hsr]; simp), hupd]
      refine ⟨habs1, ?_, hsegs, ?_⟩
      · rw [hpos]
        have hv : (bh - eventHorizon • w) - bh = (-eventHorizon) • w := by
          ext <;> simp
        rw [hv, len_smul, nlz_len hw, mul_one, abs_neg, abs_of_nonneg hhor]
      · have hwv := nlz_some_val hw
        rw [len_sub_comm bh q] at hwv
        rw [hpos, hwv]
        ext <;> simp <;> ring
    · exact absurd hSdist hnot

theorem len_x_nonneg {a : ℝ} (h : 0 ≤ a) : len ⟨a, 0⟩ = a := by
  rw [len_x, abs_of_nonneg h]

theorem len_x_neg {a : ℝ} (h : 0 ≤ a) : len ⟨-a, 0⟩ = a := by
  rw [len_x, abs_neg, abs_of_nonneg h]

theorem evalTD_A : Geo.CalculateTimeDilation (1/2) (7/64) = 4/3 := by
  simp only [Geo.CalculateTimeDilation]
  rw [if_neg (by norm_num)]
  have h1 : (1:ℝ) - 2 * (7/64) / (1/2) = 9/16 := by norm_num
  rw [h1, show ((9:ℝ)/16) = (3/4)^2 by norm_num,
    Real.sqrt_sq (by norm_num : (0:ℝ) ≤ 3/4)]
  rw [min_eq_left (by norm_num)]
  norm_num

theorem evalDefl_A :
    Geo.CalculateGeodesicDeflection ⟨1/2, 0⟩ ⟨-1, 0⟩ ⟨0, 0⟩ (7/64) 0 defaultParams
      = some ⟨63/256, 0⟩ := by
  have hsub : (⟨0, 0⟩ : Vec2) - ⟨1/2, 0⟩ = ⟨-(1/2), 0⟩ := by ext <;> norm_num
  have hlen : len ⟨-(1/2), 0⟩ = 1/2 := len_x_neg (by norm_num)
  simp only [Geo.CalculateGeodesicDeflection, hsub, hlen, defaultParams]
  have hr : (if (1:ℝ)/2 < 1e-3 then (1e-3:ℝ) else (1:ℝ)/2) = 1/2 := if_neg (by norm_num)
  rw [hr]
  rw [if_neg (by norm_num : ¬((1:ℝ)/2 < 2*(7/64)*0.5))]
  simp only [Vec2.smul_mk, Vec2.add_mk, Vec2.smul_x, Vec2.smul_y, abs_zero]
  norm_num
  rw [len_x_nonneg (by norm_num : (0:ℝ) ≤ 63/256)]
  intro hcon
  norm_num at hcon

theorem evalInt_A :
    Geo.IntegrateHead (4/5) ⟨0, 0⟩ (7/64) defaultParams rayA
      = some (⟨-1, 0⟩, ⟨-(1/10), 0⟩) := by
  simp only [Geo.IntegrateHead, rayA]
  rw [show (⟨1/2, 0⟩ : Vec2) - ⟨0, 0⟩ = ⟨1/2, 0⟩ from by ext <;> norm_num]
  rw [len_x_nonneg (by norm_num : (0:ℝ) ≤ 1/2)]
  rw [evalTD_A, evalDefl_A]
  simp only [Option.some_bind]
  rw [show ((4:ℝ)/5) / (4/3) = 3/5 from by norm_num]
  rw [show (⟨-1, 0⟩ : Vec2) + (3/5 : ℝ) • ⟨63/256, 0⟩ = ⟨-(1091/1280), 0⟩ from by
    ext <;> norm_num]
  rw [len_x_neg (by norm_num : (0:ℝ) ≤ 1091/1280)]
  rw [if_pos (by norm_num : (1091:ℝ)/1280 > 0.001)]
  rw [nlz_x_neg (by norm_num : -(1091/1280 : ℝ) < 0)]
  simp only [Option.map_some']
  norm_num [Prod.mk.injEq, Vec2.smul_mk, Vec2.add_mk, Vec2.mk.injEq]

theorem evalProp_A :
    Geo.PropagateRay (4/5) ⟨0, 0⟩ (7/64) (1/5) defaultParams rayA = some rayAp := by
  simp only [Geo.PropagateRay]
  rw [if_neg (by simp [rayA])]
  rw [show rayA.headPosition - (⟨0, 0⟩ : Vec2) = ⟨1/2, 0⟩ from by ext <;> simp [rayA]]
  rw [len_x_nonneg (by norm_num : (0:ℝ) ≤ 1/2), evalTD_A, evalInt_A]
  simp only [Option.some_bind]
  rw [if_neg (by norm_num : ¬((1:ℝ)/2 < 1/5))]
  norm_num [rayA, rayAp, Geo.Ray.mk.injEq]

theorem evalSeg_A : Geo.UpdateSegments rayAp = rayAfin := by
  simp only [Geo.UpdateSegments, rayAp]
  rw [show (⟨-(1/10), 0⟩ : Vec2) - ⟨1/2, 0⟩ = ⟨-(3/5), 0⟩ from by ext <;> norm_num]
  rw [len_x_neg (by norm_num : (0:ℝ) ≤ 3/5)]
  rw [if_pos (by norm_num : (3:ℝ)/5 > 0.01)]
  norm_num [rayAfin, Geo.Ray.mk.injEq]

theorem evalNR_A : Geo.NeedsReset rayAfin = false := by
  simp only [Geo.NeedsReset, rayAfin]
  rw [len_x_neg (by norm_num : (0:ℝ) ≤ 1/10)]
  rw [if_neg (by norm_num : ¬((1:ℝ)/10 > 2.5))]
  simp
  rw [abs_of_nonneg (by norm_num : (0:ℝ) ≤ (10:ℝ)⁻¹), abs_of_nonneg (by norm_num : (0:ℝ) ≤ (2:ℝ)⁻¹)]
  exact fun _ => by norm_num

theorem evalSR_A : Geo.ShouldRespawn rayAfin = false := by
  simp [Geo.ShouldRespawn, rayAfin]

theorem evalUpd_A :
    Geo.Update (4/5) ⟨0, 0⟩ (7/64) (1/5) defaultParams ⟨0, 0, 0⟩ rayA = some rayAfin := by
  unfold Geo.Update
  rw [evalProp_A, Option.map_some']
  dsimp only
  rw [evalSeg_A, evalNR_A, evalSR_A]
  simp

/-- C4 counterexample: with the black hole at the origin, mass 7/64 and
event horizon 1/5, the ray `rayA` starts the `Update` at distance 1/2
(outside the horizon) and its head ends the same `Update` at distance
1/10, strictly inside the event horizon, yet the absorbed flag is still
false after the call: the geodesic `PropagateRay` checks the distance
measured before the move, so the head distance fell below the horizon
during this `Update` without the ray being marked absorbed on the same
call, contradicting the claim. -/
theorem c4_absorption_counterexample :
    Geo.Update (4/5) ⟨0, 0⟩ (7/64) (1/5) defaultParams ⟨0, 0, 0⟩ rayA = some rayAfin ∧
    1/5 ≤ len (rayA.headPosition - ⟨0, 0⟩) ∧
    len (rayAfin.headPosition - ⟨0, 0⟩) < 1/5 ∧
    rayAfin.absorbed = false := by
  refine ⟨evalUpd_A, ?_, ?_, rfl⟩
  · rw [show rayA.headPosition - (⟨0, 0⟩ : Vec2) = ⟨1/2, 0⟩ from by ext <;> simp [rayA]]
    rw [len_x_nonneg (by norm_num : (0:ℝ) ≤ 1/2)]
    norm_num
  · rw [show rayAfin.headPosition - (⟨0, 0⟩ : Vec2) = ⟨-(1/10), 0⟩ from by
      ext <;> simp [rayAfin]]
    rw [len_x_neg (by norm_num : (0:ℝ) ≤ 1/10)]
    norm_num

theorem evalForce_B :
    Simple.CalculateGravitationalForce ⟨3/10, 0⟩ ⟨0, 0⟩ (9/100) defaultParams
      = some ⟨-1, 0⟩ := by
  have hsub : (⟨0, 0⟩ : Vec2) - ⟨3/10, 0⟩ = ⟨-(3/10), 0⟩ := by ext <;> norm_num
  have hlen : len ⟨-(3/10), 0⟩ = 3/10 := len_x_neg (by norm_num)
  simp only [Simple.CalculateGravitationalForce, hsub, hlen, defaultParams]
  have hr : (if (3:ℝ)/10 < 1e-3 then (1e-3:ℝ) else (3:ℝ)/10) = 3/10 := if_neg (by norm_num)
  rw [hr]
  rw [show ((2:ℝ)) = ((2:ℕ):ℝ) from by norm_num, Real.rpow_natCast]
  rw [nlz_x_neg (by norm_num : -(3/10 : ℝ) < 0)]
  simp only [Option.map_some']
  norm_num [Vec2.smul_mk, Vec2.mk.injEq]

theorem evalInt_B :
    Simple.IntegrateHead (1/4) ⟨0, 0⟩ (9/100) defaultParams wRayS
      = some (⟨-1, 0⟩, ⟨1/20, 0⟩) := by
  simp only [Simple.IntegrateHead, wRayS]
  rw [evalForce_B]
  simp only [Option.some_bind]
  rw [nlz_x_neg (by norm_num : (-1 : ℝ) < 0)]
  simp only [Option.some_bind]
  rw [show (⟨-1, 0⟩ : Vec2) + (1/4 : ℝ) • (⟨-1, 0⟩ - dot ⟨-1, 0⟩ ⟨-1, 0⟩ • ⟨-1, 0⟩)
      = ⟨-1, 0⟩ from by ext <;> simp [dot]]
  rw [nlz_x_neg (by norm_num : (-1 : ℝ) < 0)]
  simp only [Option.map_some']
  norm_num [Prod.mk.injEq, Vec2.smul_mk, Vec2.add_mk, Vec2.mk.injEq]

theorem c4_absorption_amended_witness :
    ((0:ℝ) ≤ 1/5 ∧ wInG.absorbed = false ∧ wInG.segments ≠ [] ∧
      len (wInG.headPosition - ⟨0, 0⟩) < 1/5 ∧
      wRayS.absorbed = false ∧ wRayS.segments ≠ [] ∧
      Simple.IntegrateHead (1/4) ⟨0, 0⟩ (9/100) defaultParams wRayS
        = some (⟨-1, 0⟩, ⟨1/20, 0⟩) ∧
      len ((⟨1/20, 0⟩ : Vec2) - ⟨0, 0⟩) < 1/5) ∧
    (∀ s1, Geo.Update (1/4) ⟨0, 0⟩ (9/100) (1/5) defaultParams ⟨0, 0, 0⟩ wInG = some s1 →
      s1.absorbed = true ∧ len (s1.headPosition - ⟨0, 0⟩) = 1/5 ∧
      s1.segments = wInG.segments) ∧
    (∀ s1, Simple.Update (1/4) ⟨0, 0⟩ (9/100) (1/5) defaultParams ⟨0, 0, 0⟩ wRayS = some s1 →
      s1.absorbed = true ∧ len (s1.headPosition - ⟨0, 0⟩) = 1/5 ∧
      s1.segments = wRayS.segments ∧
      s1.headPosition - ⟨0, 0⟩
        = ((1/5) / len ((⟨1/20, 0⟩ : Vec2) - ⟨0, 0⟩)) • ((⟨1/20, 0⟩ : Vec2) - ⟨0, 0⟩)) := by
  have hGd : len (wInG.headPosition - ⟨0, 0⟩) < 1/5 := by
    rw [show wInG.headPosition - (⟨0, 0⟩ : Vec2) = ⟨1/10, 0⟩ from by ext <;> simp [wInG]]
    rw [len_x_nonneg (by norm_num : (0:ℝ) ≤ 1/10)]
    norm_num
  have hSd : len ((⟨1/20, 0⟩ : Vec2) - ⟨0, 0⟩) < 1/5 := by
    rw [show (⟨1/20, 0⟩ : Vec2) - ⟨0, 0⟩ = ⟨1/20, 0⟩ from by ext <;> norm_num]
    rw [len_x_nonneg (by norm_num : (0:ℝ) ≤ 1/20)]
    norm_num
  have h := c4_absorption_amended (1/4) (9/100) (1/5) ⟨0, 0⟩ defaultParams ⟨0, 0, 0⟩
    wInG wRayS (by norm_num) rfl (by simp [wInG]) hGd rfl (by simp [wRayS])
    ⟨-1, 0⟩ ⟨1/20, 0⟩ evalInt_B hSd
  exact ⟨⟨by norm_num, rfl, by simp [wInG], hGd, rfl, by simp [wRayS], evalInt_B, hSd⟩,
    h.1, h.2⟩

theorem c2_force_bound_witness :
    ((0:ℝ) ≤ 1 ∧ (0:ℝ) ≤ defaultParams.gravityMultiplier ∧
      (0:ℝ) ≤ defaultParams.maxForce) ∧
    (∀ f, Simple.CalculateGravitationalForce ⟨-1, 0⟩ ⟨0, 0⟩ 1 defaultParams = some f →
      len f ≤ defaultParams.maxForce) ∧
    (∀ a, Geo.CalculateGeodesicDeflection ⟨-1, 0⟩ ⟨0, 1⟩ ⟨0, 0⟩ 1 0 defaultParams = some a →
      len a ≤ defaultParams.maxForce) := by
  have h := c2_force_bound ⟨-1, 0⟩ ⟨0, 1⟩ ⟨0, 0⟩ 1 0 defaultParams (by norm_num)
    (by norm_num [defaultParams]) (by norm_num [defaultParams])
  exact ⟨⟨by norm_num, by norm_num [defaultParams], by norm_num [defaultParams]⟩, h.1, h.2⟩
